import Mathlib

/-!
# Storage API: upload lifecycle, key derivation, listing and view URLs

A shallow embedding of the Go service under `api/`:

* `internal/util/util.go`     : `IsAllowedMimeType`, `GenerateObjectKey`, `ValidateFileSize`
* `internal/model/image.go`   : `Image` and the four storage statuses
* `internal/types/types.go`   : request and response bodies
* `internal/s3/client.go`     : the object-store client, as a record of oracles
* `internal/handler/image.go` : the five handlers of `ImageHandler`

Go strings are byte sequences, so they are lists of bytes here.  The relational
table is a list of rows; the queries the handlers send through GORM are list
functions.  Clock readings, fresh UUIDs and engine failures are read from an
explicit environment record.
-/

namespace Storage

/-! ## Go strings -/

/-- A Go `string`: an immutable sequence of bytes, each a number `0 .. 255`
(`len` and slicing count bytes). -/
abbrev GoString := List Nat

/-- The bytes of an ASCII literal. -/
def ascii (s : String) : GoString := s.toList.map Char.toNat

/-! ## `internal/util/util.go` -/

/-- The four keys of the map `allowedMimeTypes`. -/
def allowedMimeTypes : List GoString :=
  [ascii "image/jpeg", ascii "image/png", ascii "image/webp", ascii "image/heic"]

/-- `IsAllowedMimeType`: the map lookup yields `true` exactly on the four keys. -/
def IsAllowedMimeType (mimeType : GoString) : Bool :=
  decide (mimeType ∈ allowedMimeTypes)

/-- One byte against the class of `invalidCharsRegex`, which is
`[<>:"/\\|?*\x00-\x1F]`.  Every member is ASCII, and a byte below `0x80` is a
rune of its own in any Go string, so the regular expression matches byte by byte. -/
def invalidChar (b : Nat) : Bool :=
  b == 60 || b == 62 || b == 58 || b == 34 || b == 47 || b == 92 ||
  b == 124 || b == 63 || b == 42 || decide (b ≤ 31)

/-- `invalidCharsRegex.ReplaceAllString(s, "_")`. -/
def replaceInvalid (s : GoString) : GoString :=
  s.map (fun b => if invalidChar b then 95 else b)

/-- `strings.ReplaceAll(s, " ", "_")`. -/
def replaceSpaces (s : GoString) : GoString :=
  s.map (fun b => if b = 32 then 95 else b)

/-- The loop of `filepath.Ext`, run over the reversed path: walk back from the
last byte, stop with `""` at a path separator `/`, and return the suffix that
starts at the first `.` met on the way. -/
def extLoop : GoString → GoString → GoString
  | [], _ => []
  | c :: rest, seen =>
    if c = 47 then []
    else if c = 46 then c :: seen
    else extLoop rest (c :: seen)

/-- `filepath.Ext(path)` (Unix separator). -/
def Ext (path : GoString) : GoString := extLoop path.reverse []

/-- `strings.TrimSuffix(s, suffix)`. -/
def TrimSuffix (s suffix : GoString) : GoString :=
  if suffix.isSuffixOf s then s.take (s.length - suffix.length) else s

/-- Decimal digits of `n`, most significant first; `fuel` bounds the number of digits. -/
def decimalLoop : Nat → Nat → GoString
  | 0, _ => []
  | fuel + 1, n =>
    if n < 10 then [48 + n] else decimalLoop fuel (n / 10) ++ [48 + n % 10]

/-- The verb `%d` on a natural number. -/
def fmtNat (n : Nat) : GoString := decimalLoop (n + 1) n

/-- The verb `%d` on an `int`. -/
def fmtInt (i : Int) : GoString :=
  if i < 0 then 45 :: fmtNat i.natAbs else fmtNat i.natAbs

/-- The verb `%02d` on a non-negative number: zero-padded to width two. -/
def fmtPad2 (n : Nat) : GoString :=
  if n < 10 then 48 :: fmtNat n else fmtNat n

/-- A `uuid.UUID`, sixteen bytes read as one big-endian number. -/
structure UUID where
  val : Nat
deriving DecidableEq, Repr

/-- One lower-case hexadecimal digit. -/
def hexDigit (n : Nat) : Nat := if n < 10 then 48 + n else 87 + n

/-- Nat `i` (of sixteen) of a UUID. -/
def UUID.byte (u : UUID) (i : Nat) : Nat := u.val / 256 ^ (15 - i) % 256

/-- Lower-case hexadecimal of the bytes at the given positions. -/
def UUID.hex (u : UUID) : List Nat → GoString
  | [] => []
  | i :: is => hexDigit (u.byte i / 16) :: hexDigit (u.byte i % 16) :: u.hex is

/-- `uuid.UUID.String`: the form `xxxxxxxx-xxxx-xxxx-xxxx-xxxxxxxxxxxx`. -/
def UUID.String (u : UUID) : GoString :=
  u.hex [0, 1, 2, 3] ++ (45 :: (u.hex [4, 5] ++ (45 :: (u.hex [6, 7] ++
    (45 :: (u.hex [8, 9] ++ (45 :: u.hex [10, 11, 12, 13, 14, 15])))))))

/-- What `now.Year()`, `now.Month()` and `now.Day()` return for one clock reading. -/
structure Date where
  year : Int
  month : Nat
  day : Nat
deriving DecidableEq, Repr

/-- The part `y=%d/m=%02d/d=%02d/` of the format string of `GenerateObjectKey`. -/
def datePartition (d : Date) : GoString :=
  ascii "y=" ++ fmtInt d.year ++ ascii "/m=" ++ fmtPad2 d.month ++ ascii "/d=" ++
    fmtPad2 d.day ++ ascii "/"

/-- The base name after both replacements and the cut to 100 bytes. -/
def safeBaseName (fileName : GoString) : GoString :=
  let ext := Ext fileName
  let baseName := TrimSuffix fileName ext
  let safe := replaceSpaces (replaceInvalid baseName)
  if safe.length > 100 then safe.take 100 else safe

/-- `GenerateObjectKey(fileName)`, with the UUID and the clock reading it draws
passed in.  The Go function returns `(objectKey, nil)` on its only path. -/
def GenerateObjectKey (id : UUID) (now : Date) (fileName : GoString) :
    Except String GoString :=
  let ext := Ext fileName
  .ok (datePartition now ++ id.String ++ ascii "_" ++ safeBaseName fileName ++ ext)

deriving instance DecidableEq for Except

/-- `ValidateFileSize`. -/
def ValidateFileSize (size maxSize : Int) : Bool :=
  decide (size > 0) && decide (size ≤ maxSize)

/-! ## `internal/model/image.go` -/

/-- The four values the check constraint on `storage_status` admits. -/
inductive Status where
  | requested
  | uploaded
  | failed
  | deleted
deriving DecidableEq, Repr

/-- The constant `"requested"`. -/
abbrev StatusRequested : Status := Status.requested

/-- The constant `"uploaded"`. -/
abbrev StatusUploaded : Status := Status.uploaded

/-- The constant `"failed"`. -/
abbrev StatusFailed : Status := Status.failed

/-- The constant `"deleted"`. -/
abbrev StatusDeleted : Status := Status.deleted

/-! A `time.Time` is an integer here, the nanoseconds since the Unix epoch; a
`time.Duration` is an integer count of nanoseconds, kept in the signed 64-bit
range by `wrapInt64`. -/

/-- A row of the table `images`. -/
structure Image where
  ID : UUID
  ObjectKey : GoString
  OriginalName : GoString
  MimeType : GoString
  ByteSize : Int
  Width : Option Int
  Height : Option Int
  ETag : Option GoString
  StorageStatus : Status
  CreatedAt : Int
  UploadedAt : Option Int
deriving DecidableEq, Repr

/-! ## `internal/types/types.go` -/

/-- Body of `POST /images/upload-request`. -/
structure UploadRequestReq where
  FileName : GoString
  ContentType : GoString
  FileSize : Int
deriving DecidableEq, Repr

/-- The `image` member of the upload-request response. -/
structure ImageResponse where
  ID : UUID
  ObjectKey : GoString
  OriginalName : GoString
  MimeType : GoString
  ByteSize : Int
  Status : Status
deriving DecidableEq, Repr

/-- The `upload` member of the upload-request response. -/
structure UploadResponse where
  Method : GoString
  URL : GoString
  Headers : List (GoString × GoString)
  ExpiresInSec : Int
deriving DecidableEq, Repr

/-- Response of `POST /images/upload-request`. -/
structure UploadRequestRes where
  Image : ImageResponse
  Upload : UploadResponse
deriving DecidableEq, Repr

/-- Body of `POST /images/upload-complete`. -/
structure UploadCompleteReq where
  ID : UUID
  ObjectKey : GoString
deriving DecidableEq, Repr

/-- One listed image. -/
structure ImageMeta where
  ID : UUID
  ObjectKey : GoString
  OriginalName : GoString
  MimeType : GoString
  ByteSize : Int
  UploadedAt : Option Int
deriving DecidableEq, Repr

/-- The text of a cursor, abstracted to what `time.Parse(time.RFC3339, text)`
makes of it: an instant (the parser accepts a fractional second) or an error. -/
inductive CursorText where
  | instant (t : Int)
  | malformed
deriving DecidableEq, Repr

/-- Response of `GET /images`. -/
structure ImageListResponse where
  Items : List ImageMeta
  NextCursor : Option CursorText
deriving DecidableEq, Repr

/-- One entry of `requests` in the body of `POST /images/view-urls`. -/
structure ViewUrlRequest where
  ID : UUID
deriving DecidableEq, Repr

/-- Body of `POST /images/view-urls`. -/
structure ViewUrlsReq where
  Requests : List ViewUrlRequest
  TTLSec : Option Int
deriving DecidableEq, Repr

/-- One entry of `results`. -/
structure ViewUrlResult where
  ID : UUID
  URL : GoString
  ExpiresAt : Int
deriving DecidableEq, Repr

/-- Response of `POST /images/view-urls`. -/
structure ViewUrlsRes where
  Results : List ViewUrlResult
deriving DecidableEq, Repr

/-- The members `code` and `message` of an `ErrorDetail` (the request id is an
echo of a header and is left out). -/
structure ErrorDetail where
  Code : String
  Message : String
deriving DecidableEq, Repr

/-- What a handler passes to `c.JSON`: the HTTP status and the body. -/
inductive Response where
  | error (status : Nat) (detail : ErrorDetail)
  | uploadRequest (res : UploadRequestRes)
  | uploadComplete
  | imageList (res : ImageListResponse)
  | imageMeta (res : ImageMeta)
  | viewUrls (res : ViewUrlsRes)
deriving DecidableEq, Repr

/-- Status 400 with code `BadRequest`. -/
def badRequest (message : String) : Response := .error 400 ⟨"BadRequest", message⟩

/-- Status 404 with code `NotFound`. -/
def notFound (message : String) : Response := .error 404 ⟨"NotFound", message⟩

/-- Status 409 with code `Conflict`. -/
def conflict (message : String) : Response := .error 409 ⟨"Conflict", message⟩

/-- Status 500 with code `InternalError`. -/
def internalError (message : String) : Response := .error 500 ⟨"InternalError", message⟩

/-! ## `internal/s3/client.go` -/

/-- The member of `s3.HeadObjectOutput` the handlers read. -/
structure HeadObjectOutput where
  ETag : Option GoString
deriving DecidableEq, Repr

/-- The three methods of `s3.Client`.  What the remote service answers is not
in the repository, so each method is an oracle on its arguments. -/
structure Client where
  PresignPutObject : GoString → GoString → Int → Except String GoString
  PresignGetObject : GoString → Int → Except String GoString
  HeadObject : GoString → Except String HeadObjectOutput

/-- A call a handler made on the object-store client. -/
inductive S3Call where
  | presignPut (key contentType : GoString) (ttl : Int)
  | presignGet (key : GoString) (ttl : Int)
  | head (key : GoString)
deriving DecidableEq, Repr

/-! ## The table `images` behind `*gorm.DB` -/

/-- The rows of `images`, in table order. -/
abbrev DB := List Image

/-- The errors a GORM call reports. -/
inductive DBError where
  | ErrRecordNotFound
  | engine
deriving DecidableEq, Repr

/-- The primary key on `id` and the unique index on `object_key`. -/
def DB.WF (db : DB) : Prop :=
  (db.map (fun r => r.ID)).Nodup ∧ (db.map (fun r => r.ObjectKey)).Nodup

/-- The statement `db.Create(&image)`: an insert, refused when the engine fails or when
the primary key or the unique index would be violated. -/
def DB.Create (engineErr : Bool) (db : DB) (image : Image) : Except DBError DB :=
  if engineErr then .error .engine
  else if db.any (fun r => decide (r.ID = image.ID)) then .error .engine
  else if db.any (fun r => decide (r.ObjectKey = image.ObjectKey)) then .error .engine
  else .ok (db ++ [image])

/-- The statement `db.Where(cond).First(&image)`: the first matching row. -/
def DB.First (engineErr : Bool) (db : DB) (cond : Image → Bool) : Except DBError Image :=
  if engineErr then .error .engine
  else match db.find? cond with
    | some image => .ok image
    | none => .error .ErrRecordNotFound

/-- The statement `db.Where(cond).Find(&images)`, all matching rows. -/
def DB.Find (engineErr : Bool) (db : DB) (cond : Image → Bool) : Except DBError (List Image) :=
  if engineErr then .error .engine else .ok (db.filter cond)

/-- The clause `ORDER BY created_at DESC`. -/
def orderCreatedAtDesc (rows : List Image) : List Image :=
  rows.insertionSort (fun a b => a.CreatedAt ≥ b.CreatedAt)

/-- The statement `db.Where(cond).Order("created_at DESC").Limit(n).Find(&images)`. -/
def DB.FindOrderLimit (engineErr : Bool) (db : DB) (cond : Image → Bool) (n : Nat) :
    Except DBError (List Image) :=
  if engineErr then .error .engine else .ok ((orderCreatedAtDesc (db.filter cond)).take n)

/-- The statement `db.Model(&image).Updates(...)`: it carries `WHERE id = image.ID`
and sets the given columns on the rows it matches. -/
def DB.Updates (engineErr : Bool) (db : DB) (image : Image) (set : Image → Image) :
    Except DBError DB :=
  if engineErr then .error .engine
  else .ok (db.map (fun r => if r.ID = image.ID then set r else r))

/-! ## Environment of one request -/

/-- What one request reads from outside the handler and the table. -/
structure Env where
  /-- The reading of `time.Now()` in the handler. -/
  now : Int
  /-- The reading of `time.Now()` inside `GenerateObjectKey`. -/
  keyDate : Date
  /-- The result of `uuid.New()` in `UploadRequest`. -/
  imageID : UUID
  /-- The result of `uuid.New()` inside `GenerateObjectKey`. -/
  keyID : UUID
  /-- The engine fails the query of this request. -/
  readErr : Bool
  /-- The engine fails the insert or update of this request. -/
  writeErr : Bool

/-- 64-bit two's complement wrap-around. -/
def wrapInt64 (i : Int) : Int := (i + 2 ^ 63) % 2 ^ 64 - 2 ^ 63

/-- The product `time.Duration(sec) * time.Second`. -/
def seconds (sec : Int) : Int := wrapInt64 (sec * 1000000000)

/-- `t.Format(time.RFC3339)`: the layout has no fractional second, so the text
names the whole second `t` lies in. -/
def formatRFC3339 (t : Int) : CursorText := .instant (t - t % 1000000000)

/-- `time.Parse(time.RFC3339, text)`. -/
def parseRFC3339 : CursorText → Option Int
  | .instant t => some t
  | .malformed => none

/-! ## `internal/handler/image.go` -/

/-- The handler record (the `db` member is the table, threaded as state). -/
structure ImageHandler where
  s3Client : Option Client
  presignPutTTLSec : Int
  presignGetTTLSec : Int
  maxFileSizeBytes : Int

/-- `NewImageHandler`. -/
def NewImageHandler (s3Client : Option Client) (presignPutTTLSec presignGetTTLSec : Int) :
    ImageHandler :=
  { s3Client := s3Client
    presignPutTTLSec := presignPutTTLSec
    presignGetTTLSec := presignGetTTLSec
    maxFileSizeBytes := 50 * 1024 * 1024 }

/-- What a handler call leaves behind: the response, the table, and the calls
made on the object-store client, in order. -/
structure Outcome where
  resp : Response
  db : DB
  calls : List S3Call

/-- The row `UploadRequest` builds before the insert. -/
def newImage (env : Env) (objectKey : GoString) (req : UploadRequestReq) : Image :=
  { ID := env.imageID
    ObjectKey := objectKey
    OriginalName := req.FileName
    MimeType := req.ContentType
    ByteSize := req.FileSize
    Width := none
    Height := none
    ETag := none
    StorageStatus := StatusRequested
    CreatedAt := env.now
    UploadedAt := none }

/-- `ImageHandler.UploadRequest`; `req = none` is a body that `c.Bind` rejects. -/
def UploadRequest (h : ImageHandler) (env : Env) (db : DB) (req : Option UploadRequestReq) :
    Outcome :=
  match req with
  | none => ⟨badRequest "Invalid request body", db, []⟩
  | some req =>
    if !IsAllowedMimeType req.ContentType then
      ⟨badRequest "Content type not allowed", db, []⟩
    else if !ValidateFileSize req.FileSize h.maxFileSizeBytes then
      ⟨badRequest "File size exceeds limit", db, []⟩
    else
      match GenerateObjectKey env.keyID env.keyDate req.FileName with
      | .error _ => ⟨internalError "Failed to generate object key", db, []⟩
      | .ok objectKey =>
        let image := newImage env objectKey req
        match DB.Create env.writeErr db image with
        | .error _ => ⟨internalError "Failed to save image metadata", db, []⟩
        | .ok db1 =>
          match h.s3Client with
          | none => ⟨internalError "S3 client not available", db1, []⟩
          | some s3 =>
            let ttl := seconds h.presignPutTTLSec
            let call := S3Call.presignPut objectKey req.ContentType ttl
            match s3.PresignPutObject objectKey req.ContentType ttl with
            | .error _ => ⟨internalError "Failed to generate presigned URL", db1, [call]⟩
            | .ok presignedURL =>
              ⟨.uploadRequest
                { Image :=
                    { ID := image.ID
                      ObjectKey := image.ObjectKey
                      OriginalName := image.OriginalName
                      MimeType := image.MimeType
                      ByteSize := image.ByteSize
                      Status := image.StorageStatus }
                  Upload :=
                    { Method := ascii "PUT"
                      URL := presignedURL
                      Headers := [(ascii "Content-Type", req.ContentType)]
                      ExpiresInSec := h.presignPutTTLSec } },
                db1, [call]⟩

/-- The columns the successful branch of `UploadComplete` sets: `storage_status`,
`uploaded_at`, and `e_tag` when the head output carries one. -/
def markUploaded (now : Int) (etag : Option GoString) (r : Image) : Image :=
  match etag with
  | some tag => { r with StorageStatus := StatusUploaded, UploadedAt := some now, ETag := some tag }
  | none => { r with StorageStatus := StatusUploaded, UploadedAt := some now }

/-- The column the failing branch of `UploadComplete` sets. -/
def markFailed (r : Image) : Image := { r with StorageStatus := StatusFailed }

/-- `ImageHandler.UploadComplete`; `req = none` is a body that `c.Bind` rejects. -/
def UploadComplete (h : ImageHandler) (env : Env) (db : DB) (req : Option UploadCompleteReq) :
    Outcome :=
  match req with
  | none => ⟨badRequest "Invalid request body", db, []⟩
  | some req =>
    match DB.First env.readErr db
        (fun r => decide (r.ID = req.ID) && decide (r.ObjectKey = req.ObjectKey)) with
    | .error .ErrRecordNotFound => ⟨notFound "Image not found", db, []⟩
    | .error .engine => ⟨internalError "Database error", db, []⟩
    | .ok image =>
      if image.StorageStatus ≠ StatusRequested then
        ⟨conflict "Image already processed", db, []⟩
      else
        match h.s3Client with
        | none => ⟨internalError "S3 client not available", db, []⟩
        | some s3 =>
          match s3.HeadObject image.ObjectKey with
          | .error _ =>
            -- the result of this `Update` is not inspected
            let db1 := match DB.Updates env.writeErr db image markFailed with
              | .ok db1 => db1
              | .error _ => db
            ⟨notFound "Object not found in S3", db1, [.head image.ObjectKey]⟩
          | .ok headOutput =>
            match DB.Updates env.writeErr db image (markUploaded env.now headOutput.ETag) with
            | .error _ =>
              ⟨internalError "Failed to update image status", db, [.head image.ObjectKey]⟩
            | .ok db1 => ⟨.uploadComplete, db1, [.head image.ObjectKey]⟩

/-- The conversion of a row to a list item. -/
def toImageMeta (img : Image) : ImageMeta :=
  { ID := img.ID
    ObjectKey := img.ObjectKey
    OriginalName := img.OriginalName
    MimeType := img.MimeType
    ByteSize := img.ByteSize
    UploadedAt := img.UploadedAt }

/-- The page size of `ListImages`: `limitParam` is what `strconv.Atoi` reads from
the query parameter, `none` when it is empty or not a number. -/
def pageLimit (limitParam : Option Int) : Nat :=
  match limitParam with
  | some parsedLimit => if parsedLimit > 0 ∧ parsedLimit ≤ 100 then parsedLimit.toNat else 20
  | none => 20

/-- The cursor's part of the `WHERE` clause of `ListImages`: `created_at < ?`
when the parameter is present and parses, nothing otherwise. -/
def olderThan (cursor : Option CursorText) (r : Image) : Bool :=
  match cursor with
  | none => true
  | some text =>
    match parseRFC3339 text with
    | some decodedTime => decide (r.CreatedAt < decodedTime)
    | none => true

/-- The `WHERE` clause of `ListImages`: uploaded rows, older than the cursor. -/
def listCond (cursor : Option CursorText) (r : Image) : Bool :=
  decide (r.StorageStatus = StatusUploaded) && olderThan cursor r

/-- `ImageHandler.ListImages`; `cursor = none` is an empty or absent parameter. -/
def ListImages (_h : ImageHandler) (env : Env) (db : DB) (limitParam : Option Int)
    (cursor : Option CursorText) : Outcome :=
  let limit := pageLimit limitParam
  match DB.FindOrderLimit env.readErr db (listCond cursor) (limit + 1) with
  | .error _ => ⟨internalError "Failed to fetch images", db, []⟩
  | .ok fetched =>
    let hasMore := decide (fetched.length > limit)
    let images := if hasMore then fetched.take limit else fetched
    let items := images.map toImageMeta
    let nextCursor :=
      if hasMore && decide (images.length > 0) then
        images.getLast?.map (fun last => formatRFC3339 last.CreatedAt)
      else none
    ⟨.imageList { Items := items, NextCursor := nextCursor }, db, []⟩

/-- The TTL in seconds `ViewUrls` settles on (the variable `ttlSec`). -/
def viewTTLSec (presignGetTTLSec : Int) (reqTTLSec : Option Int) : Int :=
  match reqTTLSec with
  | some t => if t > 0 ∧ t ≤ presignGetTTLSec then t else presignGetTTLSec
  | none => presignGetTTLSec

/-- The loop that fills `imageMap`: a later row replaces an earlier one with the same id. -/
def buildImageMap (images : List Image) : UUID → Option Image :=
  images.foldl (fun m img => fun id => if id = img.ID then some img else m id) (fun _ => none)

/-- The loop over `req.Requests` in `ViewUrls`: the results appended and the
presign calls made, both in request order. -/
def viewLoop (s3 : Client) (imageMap : UUID → Option Image) (ttl : Int) (expiresAt : Int) :
    List ViewUrlRequest → List ViewUrlResult × List S3Call
  | [] => ([], [])
  | r :: rest =>
    let tail := viewLoop s3 imageMap ttl expiresAt rest
    match imageMap r.ID with
    | some img =>
      match s3.PresignGetObject img.ObjectKey ttl with
      | .error _ => (tail.1, .presignGet img.ObjectKey ttl :: tail.2)
      | .ok presignedURL =>
        ({ ID := r.ID, URL := presignedURL, ExpiresAt := expiresAt } :: tail.1,
          .presignGet img.ObjectKey ttl :: tail.2)
    | none => tail

/-- `ImageHandler.ViewUrls`; `req = none` is a body that `c.Bind` rejects. -/
def ViewUrls (h : ImageHandler) (env : Env) (db : DB) (req : Option ViewUrlsReq) : Outcome :=
  match req with
  | none => ⟨badRequest "Invalid request body", db, []⟩
  | some req =>
    if req.Requests.length = 0 then
      ⟨badRequest "At least one request is required", db, []⟩
    else
      match h.s3Client with
      | none => ⟨internalError "S3 client not available", db, []⟩
      | some s3 =>
        let ttlSec := viewTTLSec h.presignGetTTLSec req.TTLSec
        let ttl := seconds ttlSec
        let ids := req.Requests.map (fun r => r.ID)
        match DB.Find env.readErr db
            (fun r => decide (r.ID ∈ ids) && decide (r.StorageStatus = StatusUploaded)) with
        | .error _ => ⟨internalError "Database error", db, []⟩
        | .ok images =>
          let imageMap := buildImageMap images
          let expiresAt := env.now + ttl
          let out := viewLoop s3 imageMap ttl expiresAt req.Requests
          ⟨.viewUrls { Results := out.1 }, db, out.2⟩

/-! ## `main.go`: the routes -/

/-- Where one `UploadComplete` call stands between its accesses to the table and
to the object store: before the lookup, after the lookup and both guards, after
`HeadObject`, and after its response. -/
inductive ConfirmPc where
  | start (req : Option UploadCompleteReq)
  | found (s3 : Client) (image : Image)
  | headed (image : Image) (res : Except String HeadObjectOutput)
  | done (resp : Response)

/-- One atomic stretch of `UploadComplete`: up to and including its next access
to the table or to the object store. -/
def confirmStep (h : ImageHandler) (env : Env) (db : DB) : ConfirmPc → ConfirmPc × DB
  | .start none => (.done (badRequest "Invalid request body"), db)
  | .start (some req) =>
    match DB.First env.readErr db
        (fun r => decide (r.ID = req.ID) && decide (r.ObjectKey = req.ObjectKey)) with
    | .error .ErrRecordNotFound => (.done (notFound "Image not found"), db)
    | .error .engine => (.done (internalError "Database error"), db)
    | .ok image =>
      if image.StorageStatus ≠ StatusRequested then
        (.done (conflict "Image already processed"), db)
      else
        match h.s3Client with
        | none => (.done (internalError "S3 client not available"), db)
        | some s3 => (.found s3 image, db)
  | .found s3 image => (.headed image (s3.HeadObject image.ObjectKey), db)
  | .headed image (.error _) =>
    let db1 := match DB.Updates env.writeErr db image markFailed with
      | .ok db1 => db1
      | .error _ => db
    (.done (notFound "Object not found in S3"), db1)
  | .headed image (.ok headOutput) =>
    match DB.Updates env.writeErr db image (markUploaded env.now headOutput.ETag) with
    | .error _ => (.done (internalError "Failed to update image status"), db)
    | .ok db1 => (.done .uploadComplete, db1)
  | .done resp => (.done resp, db)

/-- Two calls `a` and `b` sharing the table. -/
structure Race where
  db : DB
  a : ConfirmPc
  b : ConfirmPc

/-- The scheduler lets one call run its next stretch: `false` is call `a`, `true` is call `b`. -/
def raceStep (h : ImageHandler) (envA envB : Env) (s : Race) (who : Bool) : Race :=
  if who then
    let next := confirmStep h envB s.db s.b
    { db := next.2, a := s.a, b := next.1 }
  else
    let next := confirmStep h envA s.db s.a
    { db := next.2, a := next.1, b := s.b }

/-- The run of a schedule. -/
def runRace (h : ImageHandler) (envA envB : Env) (sched : List Bool) (s : Race) : Race :=
  sched.foldl (raceStep h envA envB) s

/-- Position in the schedule of slot number `k` (from 0) of call `who`. -/
def slotIndex (who : Bool) : Nat → List Bool → Nat
  | _, [] => 0
  | 0, x :: xs => if x = who then 0 else 1 + slotIndex who 0 xs
  | k + 1, x :: xs => if x = who then 1 + slotIndex who k xs else 1 + slotIndex who (k + 1) xs

/-- Each call reads the table in its slot 0 and writes it in its slot 2: both
reads come before both writes. -/
def readsBeforeWrites (sched : List Bool) : Bool :=
  decide (slotIndex true 0 sched < slotIndex false 2 sched) &&
    decide (slotIndex false 0 sched < slotIndex true 2 sched)

/-- The response of a finished call. -/
def ConfirmPc.response : ConfirmPc → Option Response
  | .done resp => some resp
  | _ => none

/-! ## A client paging through `GET /images` -/

/-- The client loop: the first call carries `cursor`, each later call the
`nextCursor` of the page before, until a page carries none.  The result is the
concatenation of the pages, or `none` when a call fails or `fuel` calls did not
reach the last page. -/
def collectPages (h : ImageHandler) (env : Env) (db : DB) (limitParam : Option Int) :
    Nat → Option CursorText → Option (List ImageMeta)
  | 0, _ => none
  | fuel + 1, cursor =>
    match (ListImages h env db limitParam cursor).resp with
    | .imageList res =>
      match res.NextCursor with
      | none => some res.Items
      | some next =>
        (collectPages h env db limitParam fuel (some next)).map (fun rest => res.Items ++ rest)
    | _ => none

/-- The whole second an instant lies in. -/
def secondOf (t : Int) : Int := t / 1000000000

/-- Row `a` was created in a later second than row `b`. -/
def LaterSecond (a b : Image) : Prop := secondOf b.CreatedAt < secondOf a.CreatedAt

/-- The uploaded rows, in table order. -/
def uploadedRows (db : DB) : List Image :=
  db.filter (fun r => decide (r.StorageStatus = StatusUploaded))

/-- All uploaded rows, newest first, as list items. -/
def uploadedNewestFirst (db : DB) : List ImageMeta :=
  (orderCreatedAtDesc (db.filter (fun r => decide (r.StorageStatus = StatusUploaded)))).map
    toImageMeta

/-! ## The key, as the specification words it -/

/-- Any byte but the dot. -/
def notDot (b : Nat) : Bool := decide (b ≠ 46)

/-- Any byte but the slash. -/
def notSlash (b : Nat) : Bool := decide (b ≠ 47)

/-- The suffix of `s` that starts at its last dot, empty when `s` has no dot. -/
def lastDotSuffix (s : GoString) : GoString :=
  if 46 ∈ s then 46 :: (s.reverse.takeWhile notDot).reverse else []

/-- The last element of a path: what follows its last `/`. -/
def lastElement (s : GoString) : GoString :=
  (s.reverse.takeWhile notSlash).reverse

/-- A byte of the disallowed set: a control character `0x00 .. 0x1F` or one of
the nine characters `<`, `>`, `:`, `"`, `/`, `\`, `|`, `?`, `*`. -/
def Disallowed (b : Nat) : Prop :=
  b ≤ 31 ∨ b = 60 ∨ b = 62 ∨ b = 58 ∨ b = 34 ∨ b = 47 ∨ b = 92 ∨ b = 124 ∨ b = 63 ∨ b = 42

/-- A byte that may stand in a path-safe key: not disallowed, and not a space. -/
def PathSafe (b : Nat) : Prop := ¬ Disallowed b ∧ b ≠ 32

/-- The key with the extension `ext`: date partition, token, `_`, then the file
name without `ext`, each disallowed byte and each space replaced by `_`, cut to
its first 100 bytes, then `ext` again. -/
def keyWithExt (id : UUID) (now : Date) (fileName ext : GoString) : GoString :=
  let base := fileName.take (fileName.length - ext.length)
  let clean := base.map (fun b => if invalidChar b ∨ b = 32 then 95 else b)
  datePartition now ++ id.String ++ ascii "_" ++ clean.take 100 ++ ext

/-! ## View URLs, as the specification words them -/

/-- Issuance of a GET credential for `key` succeeds. -/
def issued (s3 : Client) (ttl : Int) (key : GoString) : Bool :=
  match s3.PresignGetObject key ttl with
  | .ok _ => true
  | .error _ => false

/-- The id names an asset that exists with status `uploaded` and whose credential
issuance succeeds. -/
def canView (s3 : Client) (ttl : Int) (db : DB) (id : UUID) : Bool :=
  db.any (fun img => decide (img.ID = id) && decide (img.StorageStatus = StatusUploaded) &&
    issued s3 ttl img.ObjectKey)

/-! ## The state machine of a row -/

/-- Two calls for the same body, both about to start, on the table `db`. -/
def raceStart (db : DB) (req : UploadCompleteReq) : Race :=
  { db := db, a := .start (some req), b := .start (some req) }

/-- The table after the update that marks the rows with the id of `image` as
uploaded at `t`. -/
def uploadedAt (image : Image) (etag : Option GoString) (t : Int) (db : DB) : DB :=
  db.map (fun r => if r.ID = image.ID then markUploaded t etag r else r)

/-! ## Validation, as the specification words it -/

/-- `isValidSize(bytes, maxBytes)`: true iff `0 < bytes ≤ maxBytes`. -/
def isValidSize (bytes maxBytes : Int) : Prop := 0 < bytes ∧ bytes ≤ maxBytes

/-- The content type is one of the four allow-listed image types. -/
def isAllowedContentType (mime : GoString) : Prop :=
  mime = ascii "image/jpeg" ∨ mime = ascii "image/png" ∨ mime = ascii "image/webp" ∨
    mime = ascii "image/heic"

/-- The response is a rejection with status 400 and code `BadRequest`. -/
def Response.isBadRequest : Response → Bool
  | .error status detail => status == 400 && detail.Code == "BadRequest"
  | _ => false

/-- The response is the success body of `UploadRequest`. -/
def Response.isUploadRequest : Response → Bool
  | .uploadRequest _ => true
  | _ => false

/-! ## A page of the list, as the specification words it -/

/-- The rows that match the query of `ListImages` for this cursor, newest first. -/
def matchingRows (db : DB) (cursor : Option CursorText) : List Image :=
  orderCreatedAtDesc (db.filter (listCond cursor))

/-! ## Sample values -/

/-- An object store in which every object exists, with the tag `e1`, and every
credential is issued. -/
def okClient : Client :=
  { PresignPutObject := fun key _ _ => .ok (ascii "https://bucket/put/" ++ key)
    PresignGetObject := fun key _ => .ok (ascii "https://bucket/get/" ++ key)
    HeadObject := fun _ => .ok { ETag := some (ascii "e1") } }

/-- An object store that holds no object and issues no credential. -/
def emptyClient : Client :=
  { PresignPutObject := fun _ _ _ => .error "unavailable"
    PresignGetObject := fun _ _ => .error "unavailable"
    HeadObject := fun _ => .error "not found" }

/-- An environment with the given clock reading and a working engine. -/
def sampleEnv (now : Int) : Env :=
  { now := now
    keyDate := ⟨2026, 3, 7⟩
    imageID := ⟨100⟩
    keyID := ⟨200⟩
    readErr := false
    writeErr := false }

/-- A row with the given id, status and creation time, stored under the key `k<id>`. -/
def sampleRow (id : Nat) (status : Status) (createdAt : Int) : Image :=
  { ID := ⟨id⟩
    ObjectKey := ascii "k" ++ fmtNat id
    OriginalName := ascii "photo.jpg"
    MimeType := ascii "image/jpeg"
    ByteSize := 1024
    Width := none
    Height := none
    ETag := none
    StorageStatus := status
    CreatedAt := createdAt
    UploadedAt := none }

instance instDecidableDisallowed (b : Nat) : Decidable (Disallowed b) := by
  unfold Disallowed; infer_instance

instance instDecidablePathSafe (b : Nat) : Decidable (PathSafe b) := by
  unfold PathSafe; infer_instance

/-! # Theorems -/

/-! ## Key derivation -/

theorem invalidChar_iff (b : Nat) : invalidChar b = true ↔ Disallowed b := by
  unfold invalidChar Disallowed
  simp only [Bool.or_eq_true, beq_iff_eq, decide_eq_true_eq]
  tauto

theorem extLoop_eq (l seen : GoString) :
    extLoop l seen =
      if 46 ∈ l.takeWhile notSlash then
        46 :: ((l.takeWhile notDot).reverse ++ seen)
      else [] := by
  induction l generalizing seen with
  | nil => simp [extLoop]
  | cons c rest ih =>
    by_cases h47 : c = 47
    · subst h47; simp [extLoop, List.takeWhile, notSlash]
    · by_cases h46 : c = 46
      · subst h46; simp [extLoop, List.takeWhile, notSlash, notDot]
      · have h46b : ¬ 46 = c := fun h => h46 h.symm
        simp [extLoop, List.takeWhile, notSlash, notDot, h47, h46, h46b, ih]

theorem takeWhile_dot_of_slash (l : GoString) (h : 46 ∈ l.takeWhile notSlash) :
    (l.takeWhile notSlash).takeWhile notDot =
      l.takeWhile notDot := by
  induction l with
  | nil => simp
  | cons c rest ih =>
    by_cases h47 : c = 47
    · subst h47; simp [List.takeWhile, notSlash] at h
    · by_cases h46 : c = 46
      · subst h46; simp [List.takeWhile, notSlash, notDot]
      · have h46b : ¬ 46 = c := fun h => h46 h.symm
        simp only [List.takeWhile, notSlash, notDot, h47, h46, ne_eq, not_false_eq_true,
          decide_True, List.mem_cons, h46b, false_or] at h ⊢
        rw [ih h]

/-- `filepath.Ext` returns the last-dot suffix of the last path element. -/
theorem Ext_eq_lastDotSuffix (f : GoString) : Ext f = lastDotSuffix (lastElement f) := by
  unfold Ext lastDotSuffix lastElement
  rw [extLoop_eq]
  by_cases h : 46 ∈ f.reverse.takeWhile notSlash
  · simp only [h, if_true, List.mem_reverse, List.reverse_reverse, List.append_nil]
    rw [takeWhile_dot_of_slash _ h]
  · simp [h]

theorem mem_of_mem_takeWhile (p : Nat → Bool) (l : GoString) (x : Nat)
    (h : x ∈ l.takeWhile p) : x ∈ l := by
  induction l with
  | nil => simp at h
  | cons c rest ih =>
    by_cases hc : p c = true
    · simp only [List.takeWhile, hc, List.mem_cons] at h ⊢
      rcases h with h | h
      · exact Or.inl h
      · exact Or.inr (ih h)
    · simp [List.takeWhile, hc] at h

theorem dot_mem_of_mem_takeWhile (l : GoString) (h : 46 ∈ l.takeWhile notSlash) :
    46 ∈ l := mem_of_mem_takeWhile _ _ _ h

theorem split_at_dot (l : GoString) (h : 46 ∈ l) :
    ∃ d, l = l.takeWhile notDot ++ 46 :: d := by
  induction l with
  | nil => simp at h
  | cons c rest ih =>
    by_cases h46 : c = 46
    · subst h46; exact ⟨rest, by simp [List.takeWhile, notDot]⟩
    · have h46b : ¬ 46 = c := fun h => h46 h.symm
      simp only [List.mem_cons, h46b, false_or] at h
      obtain ⟨d, hd⟩ := ih h
      refine ⟨d, ?_⟩
      simp only [List.takeWhile, notDot, h46, ne_eq, not_false_eq_true, decide_True,
        List.cons_append]
      rw [← hd]

/-- The extension is a suffix of the file name. -/
theorem Ext_suffix (f : GoString) : ∃ base, f = base ++ Ext f := by
  unfold Ext
  rw [extLoop_eq]
  by_cases h : 46 ∈ f.reverse.takeWhile notSlash
  · obtain ⟨d, hd⟩ := split_at_dot f.reverse (dot_mem_of_mem_takeWhile _ h)
    refine ⟨d.reverse, ?_⟩
    simp only [h, if_true, List.append_nil]
    have := congrArg List.reverse hd
    simpa using this
  · exact ⟨f, by simp [h]⟩

theorem TrimSuffix_append (base e : GoString) : TrimSuffix (base ++ e) e = base := by
  unfold TrimSuffix
  have h : e.isSuffixOf (base ++ e) = true := by
    rw [List.isSuffixOf_iff_suffix]; exact List.suffix_append base e
  simp [h]

theorem TrimSuffix_Ext (f : GoString) :
    TrimSuffix f (Ext f) = f.take (f.length - (Ext f).length) := by
  have key : ∀ e base : GoString, f = base ++ e →
      TrimSuffix f e = f.take (f.length - e.length) := by
    intro e base h
    subst h
    rw [TrimSuffix_append]
    simp
  obtain ⟨base, hb⟩ := Ext_suffix f
  exact key _ base hb

theorem safeBaseName_eq (f : GoString) :
    safeBaseName f =
      ((f.take (f.length - (Ext f).length)).map
        (fun b => if invalidChar b ∨ b = 32 then 95 else b)).take 100 := by
  unfold safeBaseName
  simp only [TrimSuffix_Ext]
  have hmap : ∀ l : GoString, replaceSpaces (replaceInvalid l) =
      l.map (fun b => if invalidChar b ∨ b = 32 then 95 else b) := by
    intro l
    unfold replaceSpaces replaceInvalid
    rw [List.map_map]
    apply List.map_congr_left
    intro b _
    by_cases hi : invalidChar b = true
    · simp [hi]
    · by_cases h32 : b = 32
      · simp [hi, h32]
      · simp [hi, h32]
  rw [hmap]
  split
  · rfl
  · rename_i hlen
    exact (List.take_of_length_le (Nat.le_of_not_gt hlen)).symm

theorem safeBaseName_pathSafe (f : GoString) : ∀ b ∈ safeBaseName f, PathSafe b := by
  intro b hb
  rw [safeBaseName_eq] at hb
  have hb2 := List.mem_of_mem_take hb
  simp only [List.mem_map] at hb2
  obtain ⟨a, _, ha⟩ := hb2
  by_cases hi : invalidChar a = true
  · simp only [hi, true_or, if_true] at ha
    subst ha; decide
  · by_cases h32 : a = 32
    · simp only [h32, or_true, if_true] at ha
      subst ha; decide
    · simp only [hi, h32, or_self, if_false] at ha
      subst ha
      exact ⟨fun hd => hi ((invalidChar_iff a).2 hd), h32⟩

theorem safeBaseName_length (f : GoString) : (safeBaseName f).length ≤ 100 := by
  rw [safeBaseName_eq]
  simp only [List.length_take]
  omega

theorem hexDigit_pathSafe (n : Nat) (h : n < 16) : PathSafe (hexDigit n) := by
  unfold hexDigit PathSafe Disallowed
  split <;> omega

theorem uuid_hex_pathSafe (u : UUID) (is : List Nat) : ∀ b ∈ u.hex is, PathSafe b := by
  induction is with
  | nil => simp [UUID.hex]
  | cons i is ih =>
    intro b hb
    simp only [UUID.hex, List.mem_cons] at hb
    have hlt : u.byte i < 256 := by unfold UUID.byte; omega
    rcases hb with rfl | rfl | hb
    · exact hexDigit_pathSafe _ (by omega)
    · exact hexDigit_pathSafe _ (by omega)
    · exact ih b hb

theorem uuid_String_pathSafe (u : UUID) : ∀ b ∈ u.String, PathSafe b := by
  intro b hb
  unfold UUID.String at hb
  have hdash : PathSafe 45 := by decide
  have hx := uuid_hex_pathSafe u
  rcases List.mem_append.1 hb with h | h
  · exact hx _ b h
  rcases List.mem_cons.1 h with rfl | h
  · exact hdash
  rcases List.mem_append.1 h with h | h
  · exact hx _ b h
  rcases List.mem_cons.1 h with rfl | h
  · exact hdash
  rcases List.mem_append.1 h with h | h
  · exact hx _ b h
  rcases List.mem_cons.1 h with rfl | h
  · exact hdash
  rcases List.mem_append.1 h with h | h
  · exact hx _ b h
  rcases List.mem_cons.1 h with rfl | h
  · exact hdash
  exact hx _ b h

theorem decimalLoop_pathSafe (fuel n : Nat) : ∀ b ∈ decimalLoop fuel n, PathSafe b := by
  induction fuel generalizing n with
  | zero => simp [decimalLoop]
  | succ k ih =>
    intro b hb
    unfold decimalLoop at hb
    split at hb
    · simp only [List.mem_singleton] at hb
      subst hb; unfold PathSafe Disallowed; omega
    · simp only [List.mem_append, List.mem_singleton] at hb
      rcases hb with hb | rfl
      · exact ih _ b hb
      · unfold PathSafe Disallowed; omega

theorem datePartition_bytes (d : Date) : ∀ b ∈ datePartition d, PathSafe b ∨ b = 47 := by
  intro b hb
  have hz : PathSafe 48 := by decide
  have hm : PathSafe 45 := by decide
  have hnat : ∀ n, ∀ c ∈ fmtNat n, PathSafe c := fun n => decimalLoop_pathSafe _ _
  have hpad : ∀ n, ∀ c ∈ fmtPad2 n, PathSafe c := by
    intro n c hc
    unfold fmtPad2 at hc
    split at hc
    · rcases List.mem_cons.1 hc with rfl | hc
      · exact hz
      · exact hnat _ c hc
    · exact hnat _ c hc
  have hint : ∀ i, ∀ c ∈ fmtInt i, PathSafe c := by
    intro i c hc
    unfold fmtInt at hc
    split at hc
    · rcases List.mem_cons.1 hc with rfl | hc
      · exact hm
      · exact hnat _ c hc
    · exact hnat _ c hc
  unfold datePartition at hb
  simp only [List.mem_append] at hb
  have hlit : ∀ s : String, (∀ c ∈ ascii s, PathSafe c ∨ c = 47) → b ∈ ascii s →
      PathSafe b ∨ b = 47 := fun s hs hbs => hs b hbs
  rcases hb with (((((hb | hb) | hb) | hb) | hb) | hb) | hb
  · exact hlit "y=" (by decide) hb
  · exact Or.inl (hint _ b hb)
  · exact hlit "/m=" (by decide) hb
  · exact Or.inl (hpad _ b hb)
  · exact hlit "/d=" (by decide) hb
  · exact Or.inl (hpad _ b hb)
  · exact hlit "/" (by decide) hb

theorem Ext_no_slash (f : GoString) : ∀ b ∈ Ext f, b ≠ 47 := by
  intro b hb
  unfold Ext at hb
  rw [extLoop_eq] at hb
  split at hb
  · rename_i h
    simp only [List.append_nil, List.mem_cons, List.mem_reverse] at hb
    rcases hb with rfl | hb
    · decide
    · rw [← takeWhile_dot_of_slash _ h] at hb
      have h1 := mem_of_mem_takeWhile _ _ _ hb
      have h2 := List.mem_takeWhile_imp h1
      simpa [notSlash] using h2
  · simp at hb

/-- C9, as stated, fails: for the file name `scan.j p:g` the extension `.j p:g`
is reattached as it is, so the key holds a space and a colon (and, as every key,
the slashes of its date partition). -/
theorem generateObjectKey_keeps_unsafe_extension :
    GenerateObjectKey ⟨0⟩ ⟨2026, 3, 7⟩ (ascii "scan.j p:g") =
        .ok (ascii "y=2026/m=03/d=07/00000000-0000-0000-0000-000000000000_scan.j p:g") ∧
      32 ∈ ascii "y=2026/m=03/d=07/00000000-0000-0000-0000-000000000000_scan.j p:g" ∧
      58 ∈ ascii "y=2026/m=03/d=07/00000000-0000-0000-0000-000000000000_scan.j p:g" ∧
      47 ∈ ascii "y=2026/m=03/d=07/00000000-0000-0000-0000-000000000000_scan.j p:g" ∧
      Disallowed 58 ∧ Disallowed 47 ∧ ¬ PathSafe 32 := by
  decide

/-- C9, amended: the key is the date partition, then token, `_` and sanitized
base name, then the extension.  The middle part holds no disallowed byte and no
space; the date partition holds none but its `/` separators; the extension is
the file name's own, never holds a `/`, and is not sanitized: once it is free of
disallowed bytes and spaces, so is everything after the date partition. -/
theorem generateObjectKey_safe_up_to_extension (id : UUID) (now : Date) (fileName : GoString) :
    GenerateObjectKey id now fileName =
        .ok (datePartition now ++ (id.String ++ ascii "_" ++ safeBaseName fileName) ++
          Ext fileName) ∧
      (∀ b ∈ datePartition now, PathSafe b ∨ b = 47) ∧
      (∀ b ∈ id.String ++ ascii "_" ++ safeBaseName fileName, PathSafe b) ∧
      (∃ base, fileName = base ++ Ext fileName) ∧
      (∀ b ∈ Ext fileName, b ≠ 47) ∧
      ((∀ b ∈ Ext fileName, PathSafe b) →
        ∀ b ∈ id.String ++ ascii "_" ++ safeBaseName fileName ++ Ext fileName, PathSafe b) := by
  have hmid : ∀ b ∈ id.String ++ ascii "_" ++ safeBaseName fileName, PathSafe b := by
    intro b hb
    simp only [List.mem_append] at hb
    rcases hb with (hb | hb) | hb
    · exact uuid_String_pathSafe id b hb
    · have hu : ∀ c ∈ ascii "_", PathSafe c := by decide
      exact hu b hb
    · exact safeBaseName_pathSafe fileName b hb
  refine ⟨?_, datePartition_bytes now, hmid, Ext_suffix fileName, Ext_no_slash fileName, ?_⟩
  · simp [GenerateObjectKey, List.append_assoc]
  · intro hext b hb
    rcases List.mem_append.1 hb with hb | hb
    · exact hmid b hb
    · exact hext b hb

/-- C10, as stated, fails: in `v1.2/readme` the last dot stands before a `/`, so
`filepath.Ext` finds no extension and the whole name is sanitized, while the
suffix starting at the last dot is `.2/readme`. -/
theorem generateObjectKey_differs_from_last_dot_suffix :
    GenerateObjectKey ⟨0⟩ ⟨2026, 3, 7⟩ (ascii "v1.2/readme") =
        .ok (ascii "y=2026/m=03/d=07/00000000-0000-0000-0000-000000000000_v1.2_readme") ∧
      lastDotSuffix (ascii "v1.2/readme") = ascii ".2/readme" ∧
      keyWithExt ⟨0⟩ ⟨2026, 3, 7⟩ (ascii "v1.2/readme") (lastDotSuffix (ascii "v1.2/readme")) =
        ascii "y=2026/m=03/d=07/00000000-0000-0000-0000-000000000000_v1.2/readme" := by
  decide

/-- C10, amended: `GenerateObjectKey` never fails and returns the date partition,
the token, `_`, the base and the extension, where the extension is the suffix
starting at the last dot of the last path element of the file name (empty when
that element has no dot), reattached as it is, and the base is the file name
without that extension, each disallowed byte and each space replaced by `_`, cut
to its first 100 bytes.  `photo.jpg` keeps `.jpg`; `a.b.c.png` has the base
`a.b.c` and the extension `.png`. -/
theorem generateObjectKey_eq_keyWithExt (id : UUID) (now : Date) (fileName : GoString) :
    GenerateObjectKey id now fileName =
        .ok (keyWithExt id now fileName (lastDotSuffix (lastElement fileName))) ∧
      (∃ base, fileName = base ++ lastDotSuffix (lastElement fileName)) ∧
      (safeBaseName fileName).length ≤ 100 ∧
      GenerateObjectKey id now (ascii "photo.jpg") =
        .ok (datePartition now ++ id.String ++ ascii "_" ++ ascii "photo" ++ ascii ".jpg") ∧
      GenerateObjectKey id now (ascii "a.b.c.png") =
        .ok (datePartition now ++ id.String ++ ascii "_" ++ ascii "a.b.c" ++ ascii ".png") := by
  refine ⟨?_, ?_, safeBaseName_length fileName, ?_, ?_⟩
  · unfold GenerateObjectKey keyWithExt
    simp only [safeBaseName_eq, Ext_eq_lastDotSuffix]
  · rw [← Ext_eq_lastDotSuffix]; exact Ext_suffix fileName
  · have h1 : safeBaseName (ascii "photo.jpg") = ascii "photo" := by decide
    have h2 : Ext (ascii "photo.jpg") = ascii ".jpg" := by decide
    simp only [GenerateObjectKey, h1, h2]
  · have h1 : safeBaseName (ascii "a.b.c.png") = ascii "a.b.c" := by decide
    have h2 : Ext (ascii "a.b.c.png") = ascii ".png" := by decide
    simp only [GenerateObjectKey, h1, h2]

/-! ## View URLs -/

theorem viewLoop_calls (s3 : Client) (m : UUID → Option Image) (ttl : Int) (e : Int)
    (reqs : List ViewUrlRequest) :
    ∀ call ∈ (viewLoop s3 m ttl e reqs).2, ∃ key, call = S3Call.presignGet key ttl := by
  induction reqs with
  | nil => simp [viewLoop]
  | cons r rest ih =>
    intro call hc
    simp only [viewLoop] at hc
    split at hc
    · split at hc
      · rcases List.mem_cons.1 hc with rfl | hc
        · exact ⟨_, rfl⟩
        · exact ih call hc
      · rcases List.mem_cons.1 hc with rfl | hc
        · exact ⟨_, rfl⟩
        · exact ih call hc
    · exact ih call hc

theorem viewLoop_results (s3 : Client) (m : UUID → Option Image) (ttl : Int) (e : Int)
    (reqs : List ViewUrlRequest) :
    ∀ r ∈ (viewLoop s3 m ttl e reqs).1,
      r.ExpiresAt = e ∧ ∃ img, m r.ID = some img ∧ s3.PresignGetObject img.ObjectKey ttl = .ok r.URL := by
  induction reqs with
  | nil => simp [viewLoop]
  | cons q rest ih =>
    intro r hr
    simp only [viewLoop] at hr
    split at hr
    · rename_i img himg
      split at hr
      · exact ih r hr
      · rename_i url hurl
        rcases List.mem_cons.1 hr with rfl | hr
        · exact ⟨rfl, img, himg, hurl⟩
        · exact ih r hr
    · exact ih r hr

theorem viewLoop_ids (s3 : Client) (m : UUID → Option Image) (ttl : Int) (e : Int)
    (reqs : List ViewUrlRequest) :
    (viewLoop s3 m ttl e reqs).1.map (fun r => r.ID) =
      (reqs.map (fun r => r.ID)).filter (fun id =>
        match m id with
        | some img => issued s3 ttl img.ObjectKey
        | none => false) := by
  induction reqs with
  | nil => simp [viewLoop]
  | cons q rest ih =>
    simp only [viewLoop, List.map_cons, List.filter_cons]
    cases hm : m q.ID with
    | none => simpa using ih
    | some img =>
      cases hp : s3.PresignGetObject img.ObjectKey ttl with
      | error err => simpa [issued, hp] using ih
      | ok url => simpa [issued, hp] using ih

theorem buildImageMap_eq (images : List Image) (id : UUID) :
    buildImageMap images id = images.reverse.find? (fun img => decide (img.ID = id)) := by
  induction images using List.reverseRecOn with
  | nil => rfl
  | append_singleton l x ih =>
    unfold buildImageMap at ih ⊢
    rw [List.foldl_append]
    simp only [List.foldl_cons, List.foldl_nil, List.reverse_append, List.reverse_cons,
      List.reverse_nil, List.nil_append, List.singleton_append, List.find?_cons]
    by_cases hx : id = x.ID
    · subst hx; simp
    · have hx2 : ¬ x.ID = id := fun h => hx h.symm
      simp [hx, hx2, ih]

theorem row_eq_of_id_eq (db : DB) (hwf : db.WF) (a b : Image) (ha : a ∈ db) (hb : b ∈ db)
    (hid : a.ID = b.ID) : a = b :=
  List.inj_on_of_nodup_map hwf.1 ha hb hid

theorem imageMap_issued_eq_canView (s3 : Client) (ttl : Int) (db : DB) (hwf : db.WF)
    (ids : List UUID) (id : UUID) (hid : id ∈ ids) :
    (match buildImageMap (db.filter (fun r =>
        decide (r.ID ∈ ids) && decide (r.StorageStatus = StatusUploaded))) id with
      | some img => issued s3 ttl img.ObjectKey
      | none => false) = canView s3 ttl db id := by
  rw [buildImageMap_eq]
  cases hf : (db.filter (fun r =>
      decide (r.ID ∈ ids) && decide (r.StorageStatus = StatusUploaded))).reverse.find?
      (fun img => decide (img.ID = id)) with
  | none =>
    simp only
    symm
    unfold canView
    rw [List.any_eq_false]
    intro img himg hall
    simp only [Bool.and_eq_true, decide_eq_true_eq] at hall
    rw [List.find?_eq_none] at hf
    have hmem : img ∈ (db.filter (fun r =>
        decide (r.ID ∈ ids) && decide (r.StorageStatus = StatusUploaded))).reverse := by
      rw [List.mem_reverse, List.mem_filter]
      refine ⟨himg, ?_⟩
      simp only [Bool.and_eq_true, decide_eq_true_eq]
      exact ⟨by rw [hall.1.1]; exact hid, hall.1.2⟩
    have := hf img hmem
    simp [hall.1.1] at this
  | some img =>
    simp only
    have hp := List.find?_some hf
    have hmem := List.mem_of_find?_eq_some hf
    rw [List.mem_reverse, List.mem_filter] at hmem
    simp only [decide_eq_true_eq] at hp
    simp only [Bool.and_eq_true, decide_eq_true_eq] at hmem
    unfold canView
    cases hiss : issued s3 ttl img.ObjectKey with
    | true =>
      symm
      rw [List.any_eq_true]
      exact ⟨img, hmem.1, by simp [hp, hmem.2.2, hiss]⟩
    | false =>
      symm
      rw [List.any_eq_false]
      intro img2 himg2 hall
      simp only [Bool.and_eq_true, decide_eq_true_eq] at hall
      have heq : img2 = img := row_eq_of_id_eq db hwf img2 img himg2 hmem.1 (by rw [hall.1.1, hp])
      rw [heq, hiss] at hall
      exact absurd hall.2 (by simp)

/-- The seconds `ViewUrls` settles on, with a positive configured maximum: the
caller's `ttlSec` when `0 < ttlSec ≤ max`, and the maximum when `ttlSec` is
absent, not positive, or above the maximum; they lie in `1 .. max`, and up to
a maximum of 9223372036 seconds the `time.Duration` made of them is that many
seconds. -/
theorem viewTTLSec_clamp (h : ImageHandler) (env : Env) (db : DB) (req : ViewUrlsReq)
    (hmax : 0 < h.presignGetTTLSec) :
    (∀ t, req.TTLSec = some t → 0 < t → t ≤ h.presignGetTTLSec →
        viewTTLSec h.presignGetTTLSec req.TTLSec = t) ∧
      (req.TTLSec = none → viewTTLSec h.presignGetTTLSec req.TTLSec = h.presignGetTTLSec) ∧
      (∀ t, req.TTLSec = some t → t ≤ 0 →
        viewTTLSec h.presignGetTTLSec req.TTLSec = h.presignGetTTLSec) ∧
      (∀ t, req.TTLSec = some t → h.presignGetTTLSec < t →
        viewTTLSec h.presignGetTTLSec req.TTLSec = h.presignGetTTLSec) ∧
      1 ≤ viewTTLSec h.presignGetTTLSec req.TTLSec ∧
      viewTTLSec h.presignGetTTLSec req.TTLSec ≤ h.presignGetTTLSec ∧
      (h.presignGetTTLSec ≤ 9223372036 →
        seconds (viewTTLSec h.presignGetTTLSec req.TTLSec) =
          viewTTLSec h.presignGetTTLSec req.TTLSec * 1000000000) ∧
      (∀ call ∈ (ViewUrls h env db (some req)).calls, ∃ key,
        call = S3Call.presignGet key (seconds (viewTTLSec h.presignGetTTLSec req.TTLSec))) ∧
      (∀ res, (ViewUrls h env db (some req)).resp = .viewUrls res → ∀ r ∈ res.Results,
        r.ExpiresAt = env.now + seconds (viewTTLSec h.presignGetTTLSec req.TTLSec)) := by
  have hlo : 1 ≤ viewTTLSec h.presignGetTTLSec req.TTLSec := by
    unfold viewTTLSec
    split
    · split <;> omega
    · omega
  have hhi : viewTTLSec h.presignGetTTLSec req.TTLSec ≤ h.presignGetTTLSec := by
    unfold viewTTLSec
    split
    · split <;> omega
    · omega
  refine ⟨?_, ?_, ?_, ?_, hlo, hhi, ?_, ?_, ?_⟩
  · intro t ht h0 h1
    simp [viewTTLSec, ht, h0, h1]
  · intro ht
    simp [viewTTLSec, ht]
  · intro t ht h0
    have : ¬ 0 < t := by omega
    simp [viewTTLSec, ht, this]
  · intro t ht h1
    have : ¬ t ≤ h.presignGetTTLSec := by omega
    simp [viewTTLSec, ht, this]
  · intro hcap
    generalize viewTTLSec h.presignGetTTLSec req.TTLSec = t at hlo hhi
    unfold seconds wrapInt64
    have h1 : (0 : Int) ≤ t * 1000000000 + 2 ^ 63 := by norm_num; omega
    have h2 : t * 1000000000 + 2 ^ 63 < 2 ^ 64 := by norm_num; omega
    rw [Int.emod_eq_of_lt h1 h2]
    ring
  · intro call hc
    unfold ViewUrls at hc
    simp only at hc
    split at hc
    · simp at hc
    · cases hs3 : h.s3Client with
      | none => simp [hs3] at hc
      | some s3 =>
        simp only [hs3] at hc
        split at hc
        · simp at hc
        · exact viewLoop_calls _ _ _ _ _ call hc
  · intro res hres r hr
    unfold ViewUrls at hres
    simp only at hres
    split at hres
    · simp [badRequest] at hres
    · cases hs3 : h.s3Client with
      | none => simp [hs3, internalError] at hres
      | some s3 =>
        simp only [hs3] at hres
        split at hres
        · simp [internalError] at hres
        · simp only [Response.viewUrls.injEq] at hres
          subst hres
          exact (viewLoop_results _ _ _ _ _ r hr).1

theorem viewUrls_unfold (h : ImageHandler) (env : Env) (db : DB) (req : ViewUrlsReq)
    (s3 : Client) (hs3 : h.s3Client = some s3) (hread : env.readErr = false)
    (hne : req.Requests ≠ []) :
    ViewUrls h env db (some req) =
      ⟨.viewUrls { Results := (viewLoop s3
          (buildImageMap (db.filter (fun r =>
            decide (r.ID ∈ req.Requests.map (fun r => r.ID)) &&
              decide (r.StorageStatus = StatusUploaded))))
          (seconds (viewTTLSec h.presignGetTTLSec req.TTLSec))
          (env.now + seconds (viewTTLSec h.presignGetTTLSec req.TTLSec)) req.Requests).1 },
        db,
        (viewLoop s3
          (buildImageMap (db.filter (fun r =>
            decide (r.ID ∈ req.Requests.map (fun r => r.ID)) &&
              decide (r.StorageStatus = StatusUploaded))))
          (seconds (viewTTLSec h.presignGetTTLSec req.TTLSec))
          (env.now + seconds (viewTTLSec h.presignGetTTLSec req.TTLSec)) req.Requests).2⟩ := by
  have hlen : ¬ req.Requests.length = 0 := by
    intro h0; exact hne (List.length_eq_zero.1 h0)
  simp [ViewUrls, hs3, hread, hlen, DB.Find]

/-- C8: with the object-store client present, the query answered and the ids of
the table distinct, `ViewUrls` on a non-empty request list answers with the
request ids, in request order, that name an uploaded asset whose GET credential
was issued; each entry carries the URL issued for that asset's key and the one
`expiresAt` of the batch; the table is unchanged.  For `[idA, idB]` with only
`idA` uploaded (and its credential issued) the one entry is `idA`. -/
theorem viewUrls_results (h : ImageHandler) (env : Env) (db : DB) (req : ViewUrlsReq)
    (s3 : Client) (hs3 : h.s3Client = some s3) (hread : env.readErr = false)
    (hne : req.Requests ≠ []) (hwf : db.WF) :
    ∃ res, (ViewUrls h env db (some req)).resp = .viewUrls res ∧
      (ViewUrls h env db (some req)).db = db ∧
      res.Results.map (fun r => r.ID) =
        (req.Requests.map (fun r => r.ID)).filter
          (canView s3 (seconds (viewTTLSec h.presignGetTTLSec req.TTLSec)) db) ∧
      (∀ r ∈ res.Results,
        r.ExpiresAt = env.now + seconds (viewTTLSec h.presignGetTTLSec req.TTLSec) ∧
        ∃ img ∈ db, img.ID = r.ID ∧ img.StorageStatus = StatusUploaded ∧
          s3.PresignGetObject img.ObjectKey
            (seconds (viewTTLSec h.presignGetTTLSec req.TTLSec)) = .ok r.URL) ∧
      (∀ idA idB imgA, req.Requests = [⟨idA⟩, ⟨idB⟩] → imgA ∈ db → imgA.ID = idA →
        imgA.StorageStatus = StatusUploaded →
        issued s3 (seconds (viewTTLSec h.presignGetTTLSec req.TTLSec)) imgA.ObjectKey = true →
        (∀ img ∈ db, img.ID = idB → img.StorageStatus ≠ StatusUploaded) →
        res.Results.map (fun r => r.ID) = [idA]) := by
  rw [viewUrls_unfold h env db req s3 hs3 hread hne]
  refine ⟨_, rfl, rfl, ?_, ?_, ?_⟩
  · simp only
    rw [viewLoop_ids]
    apply List.filter_congr
    intro id hid
    exact imageMap_issued_eq_canView s3 _ db hwf _ id hid
  · intro r hr
    obtain ⟨he, img, hm, hurl⟩ := viewLoop_results _ _ _ _ _ r hr
    refine ⟨he, img, ?_⟩
    rw [buildImageMap_eq] at hm
    have hp := List.find?_some hm
    have hmem := List.mem_of_find?_eq_some hm
    rw [List.mem_reverse, List.mem_filter] at hmem
    simp only [decide_eq_true_eq] at hp
    simp only [Bool.and_eq_true, decide_eq_true_eq] at hmem
    exact ⟨hmem.1, hp, hmem.2.2, hurl⟩
  · intro idA idB imgA hreq hA hidA hupA hissA hB
    simp only
    rw [viewLoop_ids]
    have hcA : canView s3 (seconds (viewTTLSec h.presignGetTTLSec req.TTLSec)) db idA = true := by
      unfold canView
      rw [List.any_eq_true]
      exact ⟨imgA, hA, by simp [hidA, hupA, hissA]⟩
    have hcB : canView s3 (seconds (viewTTLSec h.presignGetTTLSec req.TTLSec)) db idB = false := by
      unfold canView
      rw [List.any_eq_false]
      intro img himg hall
      simp only [Bool.and_eq_true, decide_eq_true_eq] at hall
      exact hB img himg hall.1.1 hall.1.2
    have hfc : (req.Requests.map (fun r => r.ID)).filter (fun id =>
        match buildImageMap (db.filter (fun r =>
            decide (r.ID ∈ req.Requests.map (fun r => r.ID)) &&
              decide (r.StorageStatus = StatusUploaded))) id with
        | some img => issued s3 (seconds (viewTTLSec h.presignGetTTLSec req.TTLSec)) img.ObjectKey
        | none => false) =
        (req.Requests.map (fun r => r.ID)).filter
          (canView s3 (seconds (viewTTLSec h.presignGetTTLSec req.TTLSec)) db) := by
      apply List.filter_congr
      intro id hid
      exact imageMap_issued_eq_canView s3 _ db hwf _ id hid
    rw [hfc, hreq]
    simp [hcA, hcB]

/-- C8, at a table with an uploaded row 1 and a requested row 2 and the request
list `[1, 2]`: the one entry is for id 1. -/
theorem viewUrls_results_witness :
    (NewImageHandler (some okClient) 300 300).s3Client = some okClient ∧
      (sampleEnv 5000).readErr = false ∧
      (ViewUrlsReq.mk [⟨⟨1⟩⟩, ⟨⟨2⟩⟩] (some 99999)).Requests ≠ [] ∧
      DB.WF [sampleRow 1 .uploaded 10, sampleRow 2 .requested 20] ∧
      ∃ res, (ViewUrls (NewImageHandler (some okClient) 300 300) (sampleEnv 5000)
          [sampleRow 1 .uploaded 10, sampleRow 2 .requested 20]
          (some (ViewUrlsReq.mk [⟨⟨1⟩⟩, ⟨⟨2⟩⟩] (some 99999)))).resp = .viewUrls res ∧
        res.Results.map (fun r => r.ID) = [⟨1⟩] := by
  have hwf : DB.WF [sampleRow 1 .uploaded 10, sampleRow 2 .requested 20] := by
    unfold DB.WF; decide
  refine ⟨rfl, rfl, by decide, hwf, ?_⟩
  obtain ⟨res, h1, _, _, _, h5⟩ :=
    viewUrls_results (NewImageHandler (some okClient) 300 300) (sampleEnv 5000)
      [sampleRow 1 .uploaded 10, sampleRow 2 .requested 20]
      (ViewUrlsReq.mk [⟨⟨1⟩⟩, ⟨⟨2⟩⟩] (some 99999)) okClient rfl rfl (by decide) hwf
  exact ⟨res, h1, h5 ⟨1⟩ ⟨2⟩ (sampleRow 1 .uploaded 10) rfl (by decide) rfl rfl rfl (by decide)⟩

/-! ## Confirming an upload -/

theorem find?_eq_some_of_unique {α : Type} (l : List α) (p : α → Bool) (a : α) (ha : a ∈ l)
    (hp : p a = true) (hu : ∀ b ∈ l, p b = true → b = a) : l.find? p = some a := by
  induction l with
  | nil => simp at ha
  | cons x xs ih =>
    by_cases hx : p x = true
    · have := hu x (List.mem_cons_self x xs) hx
      subst this
      simp [List.find?, hx]
    · have hne : a ≠ x := fun h => hx (h ▸ hp)
      have ha2 : a ∈ xs := by
        rcases List.mem_cons.1 ha with h | h
        · exact absurd h hne
        · exact h
      simp only [List.find?, hx]
      exact ih ha2 (fun b hb => hu b (List.mem_cons_of_mem x hb))

/-- Under the primary key, the lookup of `UploadComplete` returns the row that
matches the id and the key. -/
theorem lookup_eq_some (db : DB) (hwf : db.WF) (req : UploadCompleteReq) (image : Image)
    (himg : image ∈ db) (hid : image.ID = req.ID) (hkey : image.ObjectKey = req.ObjectKey) :
    db.find? (fun r => decide (r.ID = req.ID) && decide (r.ObjectKey = req.ObjectKey)) =
      some image := by
  apply find?_eq_some_of_unique _ _ _ himg
  · simp [hid, hkey]
  · intro b hb hpb
    simp only [Bool.and_eq_true, decide_eq_true_eq] at hpb
    exact row_eq_of_id_eq db hwf b image hb himg (by rw [hpb.1, hid])

theorem updates_wf (db : DB) (hwf : db.WF) (id : UUID) (set : Image → Image)
    (hset : ∀ r, (set r).ID = r.ID ∧ (set r).ObjectKey = r.ObjectKey) :
    DB.WF (db.map (fun r => if r.ID = id then set r else r)) := by
  unfold DB.WF at hwf ⊢
  have h1 : (db.map (fun r => if r.ID = id then set r else r)).map (fun r => r.ID) =
      db.map (fun r => r.ID) := by
    rw [List.map_map]
    apply List.map_congr_left
    intro r _
    by_cases h : r.ID = id
    · simp [h, (hset r).1]
    · simp [h]
  have h2 : (db.map (fun r => if r.ID = id then set r else r)).map (fun r => r.ObjectKey) =
      db.map (fun r => r.ObjectKey) := by
    rw [List.map_map]
    apply List.map_congr_left
    intro r _
    by_cases h : r.ID = id
    · simp [h, (hset r).2]
    · simp [h]
  rw [h1, h2]
  exact hwf

theorem markUploaded_keeps (now : Int) (etag : Option GoString) (r : Image) :
    (markUploaded now etag r).ID = r.ID ∧ (markUploaded now etag r).ObjectKey = r.ObjectKey := by
  cases etag <;> simp [markUploaded]

theorem markFailed_keeps (r : Image) :
    (markFailed r).ID = r.ID ∧ (markFailed r).ObjectKey = r.ObjectKey := by
  simp [markFailed]

/-- The branches of `UploadComplete`, with the engine's part spelled out. -/
theorem uploadComplete_eq (h : ImageHandler) (env : Env) (db : DB) (req : UploadCompleteReq) :
    UploadComplete h env db (some req) =
      if env.readErr = true then ⟨internalError "Database error", db, []⟩
      else
        match db.find? (fun r => decide (r.ID = req.ID) && decide (r.ObjectKey = req.ObjectKey)) with
        | none => ⟨notFound "Image not found", db, []⟩
        | some image =>
          if image.StorageStatus = StatusRequested then
            match h.s3Client with
            | none => ⟨internalError "S3 client not available", db, []⟩
            | some s3 =>
              match s3.HeadObject image.ObjectKey with
              | .error _ =>
                ⟨notFound "Object not found in S3",
                  if env.writeErr = true then db
                  else db.map (fun r => if r.ID = image.ID then markFailed r else r),
                  [.head image.ObjectKey]⟩
              | .ok out =>
                if env.writeErr = true then
                  ⟨internalError "Failed to update image status", db, [.head image.ObjectKey]⟩
                else
                  ⟨.uploadComplete,
                    db.map (fun r => if r.ID = image.ID then markUploaded env.now out.ETag r else r),
                    [.head image.ObjectKey]⟩
          else ⟨conflict "Image already processed", db, []⟩ := by
  unfold UploadComplete DB.First DB.Updates
  cases hr : env.readErr
  · cases hf : db.find? (fun r => decide (r.ID = req.ID) && decide (r.ObjectKey = req.ObjectKey))
    · simp [hf]
    · rename_i image
      by_cases hst : image.StorageStatus = StatusRequested
      · cases hs3 : h.s3Client
        · simp [hf, hst, hs3]
        · rename_i s3
          cases hh : s3.HeadObject image.ObjectKey
          · cases hw : env.writeErr <;> simp [hf, hst, hs3, hh, hw]
          · cases hw : env.writeErr <;> simp [hf, hst, hs3, hh, hw]
      · simp [hf, hst]
  · simp

/-- What a call of `UploadComplete` that answers `ok` went through. -/
theorem uploadComplete_ok_inv (h : ImageHandler) (env : Env) (db : DB) (req : UploadCompleteReq)
    (hok : (UploadComplete h env db (some req)).resp = .uploadComplete) :
    ∃ image s3 out,
      db.find? (fun r => decide (r.ID = req.ID) && decide (r.ObjectKey = req.ObjectKey)) =
        some image ∧
      image.StorageStatus = StatusRequested ∧ h.s3Client = some s3 ∧
      s3.HeadObject image.ObjectKey = .ok out ∧
      (UploadComplete h env db (some req)).db =
        db.map (fun r => if r.ID = image.ID then markUploaded env.now out.ETag r else r) := by
  rw [uploadComplete_eq] at hok ⊢
  cases hr : env.readErr
  · cases hf : db.find? (fun r => decide (r.ID = req.ID) && decide (r.ObjectKey = req.ObjectKey))
    · simp [hr, hf, notFound] at hok
    · rename_i image
      by_cases hst : image.StorageStatus = StatusRequested
      · cases hs3 : h.s3Client
        · simp [hr, hf, hst, hs3, internalError] at hok
        · rename_i s3
          cases hh : s3.HeadObject image.ObjectKey
          · simp [hr, hf, hst, hs3, hh, notFound] at hok
          · rename_i out
            cases hw : env.writeErr
            · exact ⟨image, s3, out, rfl, hst, rfl, hh, by simp [hst, hh, hw]⟩
            · simp [hr, hf, hst, hs3, hh, hw, internalError] at hok
      · simp [hr, hf, hst, conflict] at hok
  · simp [hr, internalError] at hok

theorem map_by_id_eq (db : DB) (hwf : db.WF) (image : Image) (himg : image ∈ db)
    (set : Image → Image) :
    db.map (fun r => if r.ID = image.ID then set r else r) =
      db.map (fun r => if r = image then set image else r) := by
  apply List.map_congr_left
  intro r hr
  by_cases h : r.ID = image.ID
  · have := row_eq_of_id_eq db hwf r image hr himg h
    subst this
    simp
  · have hne : r ≠ image := fun he => h (by rw [he])
    simp [h, hne]

/-- After the update on `image.ID`, the lookup of the same id and key returns the updated row. -/
theorem lookup_after_update (db : DB) (hwf : db.WF) (req : UploadCompleteReq) (image : Image)
    (himg : image ∈ db) (hid : image.ID = req.ID) (hkey : image.ObjectKey = req.ObjectKey)
    (set : Image → Image) (hset : ∀ r, (set r).ID = r.ID ∧ (set r).ObjectKey = r.ObjectKey) :
    (db.map (fun r => if r.ID = image.ID then set r else r)).find?
        (fun r => decide (r.ID = req.ID) && decide (r.ObjectKey = req.ObjectKey)) =
      some (set image) := by
  apply lookup_eq_some _ (updates_wf db hwf image.ID set hset)
  · exact List.mem_map.2 ⟨image, himg, by simp⟩
  · rw [(hset image).1, hid]
  · rw [(hset image).2, hkey]

theorem conflict_of_lookup (h : ImageHandler) (env : Env) (db : DB) (req : UploadCompleteReq)
    (image : Image) (hread : env.readErr = false)
    (hfind : db.find? (fun r => decide (r.ID = req.ID) && decide (r.ObjectKey = req.ObjectKey)) =
      some image)
    (hst : image.StorageStatus ≠ StatusRequested) :
    UploadComplete h env db (some req) = ⟨conflict "Image already processed", db, []⟩ := by
  rw [uploadComplete_eq]
  simp [hread, hfind, hst]

/-- C1: when the query is answered and the row matching id and key has a status
other than `requested`, `UploadComplete` answers `Conflict`, calls the object
store not at all and leaves the table as it is; so does a second call on the
table a first, successful call left. -/
theorem uploadComplete_conflict (h : ImageHandler) (env : Env) (req : UploadCompleteReq)
    (hread : env.readErr = false) :
    (∀ db image, DB.WF db → image ∈ db → image.ID = req.ID → image.ObjectKey = req.ObjectKey →
        image.StorageStatus ≠ StatusRequested →
        UploadComplete h env db (some req) = ⟨conflict "Image already processed", db, []⟩) ∧
      (∀ h0 env0 db0, DB.WF db0 →
        (UploadComplete h0 env0 db0 (some req)).resp = .uploadComplete →
        UploadComplete h env (UploadComplete h0 env0 db0 (some req)).db (some req) =
          ⟨conflict "Image already processed", (UploadComplete h0 env0 db0 (some req)).db, []⟩) := by
  constructor
  · intro db image hwf himg hid hkey hst
    exact conflict_of_lookup h env db req image hread (lookup_eq_some db hwf req image himg hid hkey)
      hst
  · intro h0 env0 db0 hwf hok
    obtain ⟨image, s3, out, hfind, hst, _, _, hdb⟩ := uploadComplete_ok_inv h0 env0 db0 req hok
    have himg := List.mem_of_find?_eq_some hfind
    have hp := List.find?_some hfind
    simp only [Bool.and_eq_true, decide_eq_true_eq] at hp
    rw [hdb]
    apply conflict_of_lookup h env _ req (markUploaded env0.now out.ETag image) hread
    · exact lookup_after_update db0 hwf req image himg hp.1 hp.2 _ (markUploaded_keeps _ _)
    · cases out.ETag <;> simp [markUploaded]

/-- C1, at a table whose row 1 is uploaded, and at the table a successful
confirmation of the requested row 1 leaves. -/
theorem uploadComplete_conflict_witness :
    (sampleEnv 7000).readErr = false ∧
      UploadComplete (NewImageHandler (some okClient) 300 300) (sampleEnv 7000)
          [sampleRow 1 .uploaded 10] (some ⟨⟨1⟩, ascii "k1"⟩) =
        ⟨conflict "Image already processed", [sampleRow 1 .uploaded 10], []⟩ ∧
      (UploadComplete (NewImageHandler (some okClient) 300 300) (sampleEnv 7000)
          (UploadComplete (NewImageHandler (some okClient) 300 300) (sampleEnv 6000)
            [sampleRow 1 .requested 10] (some ⟨⟨1⟩, ascii "k1"⟩)).db
          (some ⟨⟨1⟩, ascii "k1"⟩)).resp = conflict "Image already processed" := by
  have hthm := uploadComplete_conflict (NewImageHandler (some okClient) 300 300) (sampleEnv 7000)
    ⟨⟨1⟩, ascii "k1"⟩ rfl
  refine ⟨rfl, ?_, ?_⟩
  · exact hthm.1 [sampleRow 1 .uploaded 10] (sampleRow 1 .uploaded 10)
      (by unfold DB.WF; decide) (by decide) rfl (by decide) (by decide)
  · rw [hthm.2 (NewImageHandler (some okClient) 300 300) (sampleEnv 6000)
      [sampleRow 1 .requested 10] (by unfold DB.WF; decide) (by decide)]

/-- C2, as stated, fails: `HeadObject` fails and the engine refuses the update
whose result the handler does not inspect.  The call answers `NotFound`, the row
stays `requested`, and the next call for the same id and key answers `NotFound`
again, not `Conflict`. -/
theorem uploadComplete_unrecorded_failure :
    (UploadComplete (NewImageHandler (some emptyClient) 300 300)
        { sampleEnv 7000 with writeErr := true } [sampleRow 1 .requested 10]
        (some ⟨⟨1⟩, ascii "k1"⟩)).resp = notFound "Object not found in S3" ∧
      (UploadComplete (NewImageHandler (some emptyClient) 300 300)
        { sampleEnv 7000 with writeErr := true } [sampleRow 1 .requested 10]
        (some ⟨⟨1⟩, ascii "k1"⟩)).db = [sampleRow 1 .requested 10] ∧
      (UploadComplete (NewImageHandler (some emptyClient) 300 300) (sampleEnv 8000)
        (UploadComplete (NewImageHandler (some emptyClient) 300 300)
          { sampleEnv 7000 with writeErr := true } [sampleRow 1 .requested 10]
          (some ⟨⟨1⟩, ascii "k1"⟩)).db
        (some ⟨⟨1⟩, ascii "k1"⟩)).resp = notFound "Object not found in S3" := by
  decide

/-- C2, amended: when a `requested` row matches id and key, the engine answers
the lookup and accepts the update, and `HeadObject` fails, `UploadComplete`
answers `NotFound` and sets that row, and no other, to `failed`; a later call
for the same id and key answers `Conflict` whatever the object store would
report. -/
theorem uploadComplete_object_missing (h : ImageHandler) (env : Env) (db : DB)
    (req : UploadCompleteReq) (image : Image) (s3 : Client) (err : String)
    (hwf : DB.WF db) (hread : env.readErr = false) (hwrite : env.writeErr = false)
    (himg : image ∈ db) (hid : image.ID = req.ID) (hkey : image.ObjectKey = req.ObjectKey)
    (hst : image.StorageStatus = StatusRequested) (hs3 : h.s3Client = some s3)
    (hhead : s3.HeadObject image.ObjectKey = .error err) :
    (UploadComplete h env db (some req)).resp = notFound "Object not found in S3" ∧
      (UploadComplete h env db (some req)).db =
        db.map (fun r => if r = image then { image with StorageStatus := StatusFailed } else r) ∧
      { image with StorageStatus := StatusFailed } ∈ (UploadComplete h env db (some req)).db ∧
      (∀ h2 env2, env2.readErr = false →
        UploadComplete h2 env2 (UploadComplete h env db (some req)).db (some req) =
          ⟨conflict "Image already processed", (UploadComplete h env db (some req)).db, []⟩) := by
  have hfind := lookup_eq_some db hwf req image himg hid hkey
  have hout : UploadComplete h env db (some req) =
      ⟨notFound "Object not found in S3",
        db.map (fun r => if r.ID = image.ID then markFailed r else r), [.head image.ObjectKey]⟩ := by
    rw [uploadComplete_eq]
    simp [hread, hwrite, hfind, hst, hs3, hhead]
  rw [hout]
  refine ⟨rfl, ?_, ?_, ?_⟩
  · exact map_by_id_eq db hwf image himg markFailed
  · exact List.mem_map.2 ⟨image, himg, by simp [markFailed]⟩
  · intro h2 env2 hread2
    apply conflict_of_lookup h2 env2 _ req (markFailed image) hread2
    · exact lookup_after_update db hwf req image himg hid hkey _ markFailed_keeps
    · simp [markFailed]

/-- C2, amended, at a table with the requested row 1 and an object store without the object. -/
theorem uploadComplete_object_missing_witness :
    DB.WF [sampleRow 1 .requested 10, sampleRow 2 .requested 20] ∧
      (UploadComplete (NewImageHandler (some emptyClient) 300 300) (sampleEnv 7000)
          [sampleRow 1 .requested 10, sampleRow 2 .requested 20]
          (some ⟨⟨1⟩, ascii "k1"⟩)).resp = notFound "Object not found in S3" ∧
      (UploadComplete (NewImageHandler (some okClient) 300 300) (sampleEnv 8000)
          (UploadComplete (NewImageHandler (some emptyClient) 300 300) (sampleEnv 7000)
            [sampleRow 1 .requested 10, sampleRow 2 .requested 20]
            (some ⟨⟨1⟩, ascii "k1"⟩)).db
          (some ⟨⟨1⟩, ascii "k1"⟩)).resp = conflict "Image already processed" := by
  have hwf : DB.WF [sampleRow 1 .requested 10, sampleRow 2 .requested 20] := by
    unfold DB.WF; decide
  have hthm := uploadComplete_object_missing (NewImageHandler (some emptyClient) 300 300)
    (sampleEnv 7000) [sampleRow 1 .requested 10, sampleRow 2 .requested 20] ⟨⟨1⟩, ascii "k1"⟩
    (sampleRow 1 .requested 10) emptyClient "not found" hwf rfl rfl (by decide) rfl (by decide)
    rfl rfl rfl
  refine ⟨hwf, hthm.1, ?_⟩
  rw [hthm.2.2.2 (NewImageHandler (some okClient) 300 300) (sampleEnv 8000) rfl]

/-- C3: when a `requested` row matches id and key, the engine answers and accepts
the update, and `HeadObject` succeeds, `UploadComplete` answers `ok`; that row
then has the status `uploaded`, `uploadedAt` equal to the clock reading of the
call, and the reported tag when there is one (its old tag when there is none);
its other columns and every other row are as before. -/
theorem uploadComplete_success (h : ImageHandler) (env : Env) (db : DB)
    (req : UploadCompleteReq) (image : Image) (s3 : Client) (out : HeadObjectOutput)
    (hwf : DB.WF db) (hread : env.readErr = false) (hwrite : env.writeErr = false)
    (himg : image ∈ db) (hid : image.ID = req.ID) (hkey : image.ObjectKey = req.ObjectKey)
    (hst : image.StorageStatus = StatusRequested) (hs3 : h.s3Client = some s3)
    (hhead : s3.HeadObject image.ObjectKey = .ok out) :
    (UploadComplete h env db (some req)).resp = .uploadComplete ∧
      (UploadComplete h env db (some req)).calls = [.head req.ObjectKey] ∧
      ∃ row, (UploadComplete h env db (some req)).db =
          db.map (fun r => if r = image then row else r) ∧
        row ∈ (UploadComplete h env db (some req)).db ∧
        row.StorageStatus = StatusUploaded ∧ row.UploadedAt = some env.now ∧
        (∀ tag, out.ETag = some tag → row.ETag = some tag) ∧
        (out.ETag = none → row.ETag = image.ETag) ∧
        row.ID = image.ID ∧ row.ObjectKey = image.ObjectKey ∧
        row.OriginalName = image.OriginalName ∧ row.MimeType = image.MimeType ∧
        row.ByteSize = image.ByteSize ∧ row.CreatedAt = image.CreatedAt ∧
        row.Width = image.Width ∧ row.Height = image.Height := by
  have hfind := lookup_eq_some db hwf req image himg hid hkey
  have hout : UploadComplete h env db (some req) =
      ⟨.uploadComplete,
        db.map (fun r => if r.ID = image.ID then markUploaded env.now out.ETag r else r),
        [.head image.ObjectKey]⟩ := by
    rw [uploadComplete_eq]
    simp [hread, hwrite, hfind, hst, hs3, hhead]
  rw [hout]
  refine ⟨rfl, by simp [hkey], markUploaded env.now out.ETag image, ?_, ?_, ?_⟩
  · exact map_by_id_eq db hwf image himg _
  · exact List.mem_map.2 ⟨image, himg, by simp⟩
  · cases hE : out.ETag <;> simp [markUploaded]

/-- C3, at a table with the requested rows 1 and 2 and an object store holding the object. -/
theorem uploadComplete_success_witness :
    DB.WF [sampleRow 1 .requested 10, sampleRow 2 .requested 20] ∧
      (UploadComplete (NewImageHandler (some okClient) 300 300) (sampleEnv 7000)
          [sampleRow 1 .requested 10, sampleRow 2 .requested 20]
          (some ⟨⟨1⟩, ascii "k1"⟩)).resp = .uploadComplete :=
  ⟨by unfold DB.WF; decide,
    (uploadComplete_success (NewImageHandler (some okClient) 300 300)
      (sampleEnv 7000) [sampleRow 1 .requested 10, sampleRow 2 .requested 20] ⟨⟨1⟩, ascii "k1"⟩
      (sampleRow 1 .requested 10) okClient ⟨some (ascii "e1")⟩ (by unfold DB.WF; decide) rfl rfl
      (by decide) rfl (by decide) rfl rfl rfl).1⟩

/-! ## The state machine over all five routes -/

theorem listImages_db (h : ImageHandler) (env : Env) (db : DB) (limitParam : Option Int)
    (cursor : Option CursorText) : (ListImages h env db limitParam cursor).db = db := by
  unfold ListImages
  simp only
  split <;> rfl

/-- Run alone, the three stretches of a call are `UploadComplete`. -/
theorem confirmStep_thrice (h : ImageHandler) (env : Env) (db : DB)
    (req : Option UploadCompleteReq) :
    confirmStep h env (confirmStep h env (confirmStep h env db (.start req)).2
        (confirmStep h env db (.start req)).1).2
      (confirmStep h env (confirmStep h env db (.start req)).2
        (confirmStep h env db (.start req)).1).1 =
      (.done (UploadComplete h env db req).resp, (UploadComplete h env db req).db) := by
  cases req with
  | none => rfl
  | some req =>
    unfold UploadComplete
    simp only [confirmStep]
    cases hf : DB.First env.readErr db
        (fun r => decide (r.ID = req.ID) && decide (r.ObjectKey = req.ObjectKey)) with
    | error e => cases e <;> simp [confirmStep]
    | ok image =>
      by_cases hst : image.StorageStatus = StatusRequested
      · cases hs3 : h.s3Client with
        | none => simp [hst, confirmStep]
        | some s3 =>
          cases hh : s3.HeadObject image.ObjectKey with
          | error e => simp [hst, hh, confirmStep]
          | ok out =>
            cases hu : DB.Updates env.writeErr db image (markUploaded env.now out.ETag) with
            | error e => simp [hst, hh, hu, confirmStep]
            | ok db1 => simp [hst, hh, hu, confirmStep]
      · simp [hst, confirmStep]

theorem uploadedAt_twice (image : Image) (etag : Option GoString) (t1 t2 : Int) (db : DB) :
    uploadedAt image etag t2 (uploadedAt image etag t1 db) = uploadedAt image etag t2 db := by
  unfold uploadedAt
  rw [List.map_map]
  apply List.map_congr_left
  intro r _
  by_cases hc : r.ID = image.ID
  · have h1 : (markUploaded t1 etag r).ID = image.ID := by
      rw [(markUploaded_keeps t1 etag r).1]; exact hc
    cases etag <;> simp [hc, markUploaded]
  · simp [hc]

/-- C5, as stated, fails: both calls read the `requested` row before either
writes, both find the object, both write and both answer `ok`; `uploadedAt` is
written twice, first 7000, then 8000. -/
theorem race_both_ok :
    (runRace (NewImageHandler (some okClient) 300 300) (sampleEnv 7000) (sampleEnv 8000)
        [false, true, false, true, false, true]
        (raceStart [sampleRow 1 .requested 10] ⟨⟨1⟩, ascii "k1"⟩)).a.response =
        some .uploadComplete ∧
      (runRace (NewImageHandler (some okClient) 300 300) (sampleEnv 7000) (sampleEnv 8000)
        [false, true, false, true, false, true]
        (raceStart [sampleRow 1 .requested 10] ⟨⟨1⟩, ascii "k1"⟩)).b.response =
        some .uploadComplete ∧
      (runRace (NewImageHandler (some okClient) 300 300) (sampleEnv 7000) (sampleEnv 8000)
        [false, true, false, true, false]
        (raceStart [sampleRow 1 .requested 10] ⟨⟨1⟩, ascii "k1"⟩)).db.map
          (fun r => (r.StorageStatus, r.UploadedAt)) = [(.uploaded, some 7000)] ∧
      (runRace (NewImageHandler (some okClient) 300 300) (sampleEnv 7000) (sampleEnv 8000)
        [false, true, false, true, false, true]
        (raceStart [sampleRow 1 .requested 10] ⟨⟨1⟩, ascii "k1"⟩)).db.map
          (fun r => (r.StorageStatus, r.UploadedAt)) = [(.uploaded, some 8000)] := by
  decide

/-- C5, amended: two calls for the same id and key of a `requested` row whose
object exists, each scheduled for its three stretches (read, existence check,
write).  When one call's read comes after the other's write, the call that read
first answers `ok`, the other `Conflict`, and the row is uploaded at the clock
reading of the call that answered `ok`.  When both reads come before both
writes, both calls answer `ok` and the row is uploaded at the clock reading of
the later write. -/
theorem race_outcomes (h : ImageHandler) (envA envB : Env) (db : DB) (req : UploadCompleteReq)
    (image : Image) (s3 : Client) (out : HeadObjectOutput) (sched : List Bool)
    (hwf : DB.WF db) (hreadA : envA.readErr = false) (hwriteA : envA.writeErr = false)
    (hreadB : envB.readErr = false) (hwriteB : envB.writeErr = false)
    (himg : image ∈ db) (hid : image.ID = req.ID) (hkey : image.ObjectKey = req.ObjectKey)
    (hst : image.StorageStatus = StatusRequested) (hs3 : h.s3Client = some s3)
    (hhead : s3.HeadObject image.ObjectKey = .ok out)
    (hA : sched.count false = 3) (hB : sched.count true = 3) :
    (readsBeforeWrites sched = true →
        (runRace h envA envB sched (raceStart db req)).a.response = some .uploadComplete ∧
        (runRace h envA envB sched (raceStart db req)).b.response = some .uploadComplete ∧
        (runRace h envA envB sched (raceStart db req)).db =
          uploadedAt image out.ETag
            (if slotIndex false 2 sched < slotIndex true 2 sched then envB.now else envA.now) db) ∧
      (readsBeforeWrites sched = false →
        (slotIndex false 0 sched < slotIndex true 0 sched →
          (runRace h envA envB sched (raceStart db req)).a.response = some .uploadComplete ∧
          (runRace h envA envB sched (raceStart db req)).b.response =
            some (conflict "Image already processed") ∧
          (runRace h envA envB sched (raceStart db req)).db =
            uploadedAt image out.ETag envA.now db) ∧
        (slotIndex true 0 sched < slotIndex false 0 sched →
          (runRace h envA envB sched (raceStart db req)).a.response =
            some (conflict "Image already processed") ∧
          (runRace h envA envB sched (raceStart db req)).b.response = some .uploadComplete ∧
          (runRace h envA envB sched (raceStart db req)).db =
            uploadedAt image out.ETag envB.now db) ∧
        (slotIndex false 0 sched < slotIndex true 0 sched ∨
          slotIndex true 0 sched < slotIndex false 0 sched)) := by
  have hfind := lookup_eq_some db hwf req image himg hid hkey
  have hfind2 : ∀ t, (uploadedAt image out.ETag t db).find?
      (fun r => decide (r.ID = req.ID) && decide (r.ObjectKey = req.ObjectKey)) =
      some (markUploaded t out.ETag image) := fun t =>
    lookup_after_update db hwf req image himg hid hkey _ (markUploaded_keeps _ _)
  have hup : ∀ t, (markUploaded t out.ETag image).StorageStatus ≠ StatusRequested := by
    intro t; cases out.ETag <;> simp [markUploaded]
  have hA1 : confirmStep h envA db (.start (some req)) = (.found s3 image, db) := by
    simp [confirmStep, DB.First, hreadA, hfind, hst, hs3]
  have hB1 : confirmStep h envB db (.start (some req)) = (.found s3 image, db) := by
    simp [confirmStep, DB.First, hreadB, hfind, hst, hs3]
  have h2 : ∀ env d, confirmStep h env d (.found s3 image) = (.headed image (.ok out), d) := by
    intro env d; simp [confirmStep, hhead]
  have hA3 : ∀ d, confirmStep h envA d (.headed image (.ok out)) =
      (.done .uploadComplete, uploadedAt image out.ETag envA.now d) := by
    intro d; simp [confirmStep, DB.Updates, hwriteA, uploadedAt]
  have hB3 : ∀ d, confirmStep h envB d (.headed image (.ok out)) =
      (.done .uploadComplete, uploadedAt image out.ETag envB.now d) := by
    intro d; simp [confirmStep, DB.Updates, hwriteB, uploadedAt]
  have hA4 : ∀ t, confirmStep h envA (uploadedAt image out.ETag t db) (.start (some req)) =
      (.done (conflict "Image already processed"), uploadedAt image out.ETag t db) := by
    intro t; simp [confirmStep, DB.First, hreadA, hfind2 t, hup t]
  have hB4 : ∀ t, confirmStep h envB (uploadedAt image out.ETag t db) (.start (some req)) =
      (.done (conflict "Image already processed"), uploadedAt image out.ETag t db) := by
    intro t; simp [confirmStep, DB.First, hreadB, hfind2 t, hup t]
  have h5 : ∀ env d resp, confirmStep h env d (.done resp) = (.done resp, d) := by
    intro env d resp; rfl
  have hlen : sched.length = 6 := by
    rw [← List.count_false_add_count_true, hA, hB]
  rcases sched with _ | ⟨x1, _ | ⟨x2, _ | ⟨x3, _ | ⟨x4, _ | ⟨x5, _ | ⟨x6, _ | ⟨x7, rest⟩⟩⟩⟩⟩⟩⟩
  all_goals simp only [List.length_cons, List.length_nil] at hlen
  all_goals try omega
  clear hlen
  cases x1 <;> cases x2 <;> cases x3 <;> cases x4 <;> cases x5 <;> cases x6
  all_goals first
    | (exfalso; revert hB; decide)
    | (simp [runRace, raceStart, raceStep, readsBeforeWrites, slotIndex, ConfirmPc.response,
        hA1, hB1, h2, hA3, hB3, hA4, hB4, h5, uploadedAt_twice])

/-- C5, amended, at the schedule that runs call `a` to its end before call `b` starts. -/
theorem race_outcomes_witness :
    DB.WF [sampleRow 1 .requested 10] ∧
      List.count false [false, false, false, true, true, true] = 3 ∧
      List.count true [false, false, false, true, true, true] = 3 ∧
      (runRace (NewImageHandler (some okClient) 300 300) (sampleEnv 7000) (sampleEnv 8000)
        [false, false, false, true, true, true]
        (raceStart [sampleRow 1 .requested 10] ⟨⟨1⟩, ascii "k1"⟩)).a.response =
          some .uploadComplete ∧
      (runRace (NewImageHandler (some okClient) 300 300) (sampleEnv 7000) (sampleEnv 8000)
        [false, false, false, true, true, true]
        (raceStart [sampleRow 1 .requested 10] ⟨⟨1⟩, ascii "k1"⟩)).b.response =
          some (conflict "Image already processed") ∧
      (runRace (NewImageHandler (some okClient) 300 300) (sampleEnv 7000) (sampleEnv 8000)
        [false, false, false, true, true, true]
        (raceStart [sampleRow 1 .requested 10] ⟨⟨1⟩, ascii "k1"⟩)).db =
          uploadedAt (sampleRow 1 .requested 10) (some (ascii "e1")) 7000
            [sampleRow 1 .requested 10] :=
  ⟨by unfold DB.WF; decide, by decide, by decide,
    ((race_outcomes (NewImageHandler (some okClient) 300 300) (sampleEnv 7000) (sampleEnv 8000)
      [sampleRow 1 .requested 10] ⟨⟨1⟩, ascii "k1"⟩ (sampleRow 1 .requested 10) okClient
      ⟨some (ascii "e1")⟩ [false, false, false, true, true, true]
      (by unfold DB.WF; decide) rfl rfl rfl rfl (by decide) rfl (by decide) rfl rfl rfl
      (by decide) (by decide)).2 (by decide)).1 (by decide)⟩

/-! ## Paging through the list -/

/-- C6 at a failing input: two uploaded rows created 0.9 s and 0.5 s into the
same second, page size 1.  The first page holds the newer row and a cursor that
names the whole second; no row is older than that, so the second page is empty
and carries no cursor: the pages hold one row, the table two. -/
theorem listImages_pages_skip_row :
    (ListImages (NewImageHandler none 300 300) (sampleEnv 0)
        [sampleRow 1 .uploaded 1767225600900000000, sampleRow 2 .uploaded 1767225600500000000]
        (some 1) none).resp =
        .imageList
          { Items := [toImageMeta (sampleRow 1 .uploaded 1767225600900000000)]
            NextCursor := some (.instant 1767225600000000000) } ∧
      (ListImages (NewImageHandler none 300 300) (sampleEnv 0)
        [sampleRow 1 .uploaded 1767225600900000000, sampleRow 2 .uploaded 1767225600500000000]
        (some 1) (some (.instant 1767225600000000000))).resp =
        .imageList { Items := [], NextCursor := none } ∧
      collectPages (NewImageHandler none 300 300) (sampleEnv 0)
        [sampleRow 1 .uploaded 1767225600900000000, sampleRow 2 .uploaded 1767225600500000000]
        (some 1) 3 none =
        some [toImageMeta (sampleRow 1 .uploaded 1767225600900000000)] ∧
      uploadedNewestFirst
        [sampleRow 1 .uploaded 1767225600900000000, sampleRow 2 .uploaded 1767225600500000000] =
        [toImageMeta (sampleRow 1 .uploaded 1767225600900000000),
          toImageMeta (sampleRow 2 .uploaded 1767225600500000000)] := by
  decide

theorem listCond_filter (db : DB) (cursor : Option CursorText) :
    db.filter (listCond cursor) = (uploadedRows db).filter (olderThan cursor) := by
  unfold uploadedRows
  rw [List.filter_filter]
  congr 1
  funext r
  simp [listCond, Bool.and_comm]

theorem order_later (l : List Image)
    (hsec : (l.map (fun r => secondOf r.CreatedAt)).Nodup) :
    (orderCreatedAtDesc l).Pairwise LaterSecond := by
  haveI : IsTotal Image (fun a b => a.CreatedAt ≥ b.CreatedAt) := ⟨fun a b => le_total _ _⟩
  haveI : IsTrans Image (fun a b => a.CreatedAt ≥ b.CreatedAt) :=
    ⟨fun a b c hab hbc => le_trans hbc hab⟩
  have hs : (orderCreatedAtDesc l).Pairwise (fun a b => a.CreatedAt ≥ b.CreatedAt) :=
    List.sorted_insertionSort _ l
  have hp : (orderCreatedAtDesc l).Perm l := List.perm_insertionSort _ l
  have hn : ((orderCreatedAtDesc l).map (fun r => secondOf r.CreatedAt)).Nodup :=
    (hp.map _).nodup_iff.2 hsec
  have hne : (orderCreatedAtDesc l).Pairwise
      (fun a b => secondOf a.CreatedAt ≠ secondOf b.CreatedAt) := by
    unfold List.Nodup at hn
    rwa [List.pairwise_map] at hn
  refine (hs.and hne).imp ?_
  intro a b hab
  unfold LaterSecond secondOf at *
  obtain ⟨h1, h2⟩ := hab
  omega

theorem later_unique (l1 l2 : List Image) (hp : l1.Perm l2) (h1 : l1.Pairwise LaterSecond)
    (h2 : l2.Pairwise LaterSecond) : l1 = l2 := by
  haveI : IsAntisymm Image LaterSecond :=
    ⟨fun a b hab hba => by unfold LaterSecond at hab hba; omega⟩
  exact List.eq_of_perm_of_sorted hp h1 h2

theorem order_filter (l : List Image) (q : Image → Bool)
    (hsec : (l.map (fun r => secondOf r.CreatedAt)).Nodup) :
    orderCreatedAtDesc (l.filter q) = (orderCreatedAtDesc l).filter q := by
  apply later_unique
  · exact (List.perm_insertionSort _ (l.filter q)).trans
      ((List.perm_insertionSort _ l).filter q).symm
  · apply order_later
    exact hsec.sublist ((List.filter_sublist l).map _)
  · exact (order_later l hsec).sublist (List.filter_sublist _)

theorem filter_older_split (A B : List Image) (last : Image)
    (hp : (A ++ last :: B).Pairwise LaterSecond) :
    (A ++ last :: B).filter (olderThan (some (formatRFC3339 last.CreatedAt))) = B := by
  rw [List.pairwise_append] at hp
  obtain ⟨_, hB, hAB⟩ := hp
  rw [List.pairwise_cons] at hB
  have hA : A.filter (olderThan (some (formatRFC3339 last.CreatedAt))) = [] := by
    rw [List.filter_eq_nil_iff]
    intro a ha
    have := hAB a ha last (List.mem_cons_self _ _)
    unfold LaterSecond secondOf at this
    simp only [olderThan, formatRFC3339, parseRFC3339, decide_eq_true_eq]
    omega
  have hL : olderThan (some (formatRFC3339 last.CreatedAt)) last = false := by
    simp only [olderThan, formatRFC3339, parseRFC3339, decide_eq_false_iff_not]
    omega
  have hBB : B.filter (olderThan (some (formatRFC3339 last.CreatedAt))) = B := by
    rw [List.filter_eq_self]
    intro b hb
    have := hB.1 b hb
    unfold LaterSecond secondOf at this
    simp only [olderThan, formatRFC3339, parseRFC3339, decide_eq_true_eq]
    omega
  rw [List.filter_append, List.filter_cons, hA, hL, hBB]
  simp

theorem pageLimit_pos (limitParam : Option Int) : 1 ≤ pageLimit limitParam := by
  unfold pageLimit
  split
  · split
    · omega
    · omega
  · omega

/-- A page that is the last: the query returns at most `limit` rows. -/
theorem listImages_last_page (h : ImageHandler) (env : Env) (db : DB) (limitParam : Option Int)
    (cursor : Option CursorText) (hread : env.readErr = false)
    (hlen : (orderCreatedAtDesc (db.filter (listCond cursor))).length ≤ pageLimit limitParam) :
    (ListImages h env db limitParam cursor).resp =
      .imageList
        { Items := (orderCreatedAtDesc (db.filter (listCond cursor))).map toImageMeta
          NextCursor := none } := by
  have h1 : (orderCreatedAtDesc (db.filter (listCond cursor))).take (pageLimit limitParam + 1) =
      orderCreatedAtDesc (db.filter (listCond cursor)) := List.take_of_length_le (by omega)
  have h2 : ¬ pageLimit limitParam <
      (orderCreatedAtDesc (db.filter (listCond cursor))).length := by omega
  simp [ListImages, DB.FindOrderLimit, hread, h1, h2]

/-- A page that is not the last: the query returns more than `limit` rows. -/
theorem listImages_more (h : ImageHandler) (env : Env) (db : DB) (limitParam : Option Int)
    (cursor : Option CursorText) (hread : env.readErr = false)
    (hlen : pageLimit limitParam < (orderCreatedAtDesc (db.filter (listCond cursor))).length) :
    (ListImages h env db limitParam cursor).resp =
      .imageList
        { Items := ((orderCreatedAtDesc (db.filter (listCond cursor))).take
            (pageLimit limitParam)).map toImageMeta
          NextCursor := ((orderCreatedAtDesc (db.filter (listCond cursor))).take
            (pageLimit limitParam)).getLast?.map (fun last => formatRFC3339 last.CreatedAt) } := by
  have hpos := pageLimit_pos limitParam
  have h1 : ((orderCreatedAtDesc (db.filter (listCond cursor))).take
      (pageLimit limitParam + 1)).length = pageLimit limitParam + 1 := by
    rw [List.length_take]; omega
  have h2 : ((orderCreatedAtDesc (db.filter (listCond cursor))).take
      (pageLimit limitParam + 1)).take (pageLimit limitParam) =
      (orderCreatedAtDesc (db.filter (listCond cursor))).take (pageLimit limitParam) := by
    rw [List.take_take]; congr 1; omega
  have h3 : 0 < ((orderCreatedAtDesc (db.filter (listCond cursor))).take
      (pageLimit limitParam)).length := by
    rw [List.length_take]; omega
  simp only [ListImages, DB.FindOrderLimit, hread, Bool.false_eq_true, if_false, h1, h2,
    gt_iff_lt, Nat.lt_add_one, decide_True, if_true, h3, Bool.and_self]

theorem collectPages_from (h : ImageHandler) (env : Env) (db : DB) (limitParam : Option Int)
    (hread : env.readErr = false)
    (hsec : ((uploadedRows db).map (fun r => secondOf r.CreatedAt)).Nodup) :
    ∀ (fuel : Nat) (cursor : Option CursorText) (A R : List Image),
      orderCreatedAtDesc (uploadedRows db) = A ++ R →
      (orderCreatedAtDesc (uploadedRows db)).filter (olderThan cursor) = R →
      R.length < fuel →
      collectPages h env db limitParam fuel cursor = some (R.map toImageMeta) := by
  intro fuel
  induction fuel with
  | zero => intro cursor A R _ _ hlen; omega
  | succ fuel ih =>
    intro cursor A R hS hR hlen
    have hQ : orderCreatedAtDesc (db.filter (listCond cursor)) = R := by
      rw [listCond_filter, order_filter _ _ hsec, hR]
    have hpos := pageLimit_pos limitParam
    by_cases hlast : R.length ≤ pageLimit limitParam
    · have hresp := listImages_last_page h env db limitParam cursor hread (by rw [hQ]; exact hlast)
      rw [hQ] at hresp
      simp only [collectPages, hresp]
    · have hmore : pageLimit limitParam < R.length := by omega
      have hresp := listImages_more h env db limitParam cursor hread (by rw [hQ]; exact hmore)
      rw [hQ] at hresp
      have hne : R.take (pageLimit limitParam) ≠ [] := by
        intro hnil
        have := congrArg List.length hnil
        rw [List.length_take] at this
        simp only [List.length_nil] at this
        omega
      obtain ⟨last, hlastq⟩ : ∃ last, (R.take (pageLimit limitParam)).getLast? = some last := by
        cases hg : (R.take (pageLimit limitParam)).getLast? with
        | none => exact absurd (List.getLast?_eq_none_iff.1 hg) hne
        | some last => exact ⟨last, rfl⟩
      obtain ⟨init, hinit⟩ := List.getLast?_eq_some_iff.1 hlastq
      have hsplit : R = init ++ last :: R.drop (pageLimit limitParam) := by
        conv_lhs => rw [← List.take_append_drop (pageLimit limitParam) R, hinit]
        simp
      have hS2 : orderCreatedAtDesc (uploadedRows db) =
          (A ++ init) ++ last :: R.drop (pageLimit limitParam) := by
        rw [hS]
        conv_lhs => rw [hsplit]
        simp
      have hpair : ((A ++ init) ++ last :: R.drop (pageLimit limitParam)).Pairwise
          LaterSecond := by
        rw [← hS2]; exact order_later _ hsec
      have hnext := ih (some (formatRFC3339 last.CreatedAt)) (A ++ init ++ [last])
        (R.drop (pageLimit limitParam))
        (by rw [hS2]; simp)
        (by rw [hS2]; exact filter_older_split _ _ _ hpair)
        (by rw [List.length_drop]; omega)
      simp only [collectPages, hresp, hlastq, Option.map_some', hnext]
      rw [← List.map_append, List.take_append_drop]

/-- Where no two uploaded rows were created within the same second, the pages of
a client that follows the cursors are, put together, all uploaded rows, newest
first, each once. -/
theorem collectPages_complete (h : ImageHandler) (env : Env) (db : DB)
    (limitParam : Option Int) (fuel : Nat) (hread : env.readErr = false)
    (hsec : ((uploadedRows db).map (fun r => secondOf r.CreatedAt)).Nodup)
    (hfuel : db.length < fuel) :
    collectPages h env db limitParam fuel none = some (uploadedNewestFirst db) := by
  have hlen : (orderCreatedAtDesc (uploadedRows db)).length ≤ db.length := by
    unfold orderCreatedAtDesc
    rw [(List.perm_insertionSort _ (uploadedRows db)).length_eq]
    exact List.length_filter_le _ _
  have := collectPages_from h env db limitParam hread hsec fuel none []
    (orderCreatedAtDesc (uploadedRows db)) (by simp)
    (by rw [List.filter_eq_self]; intro r _; rfl) (by omega)
  rw [this]
  rfl

/-! ## Requesting an upload -/

theorem IsAllowedMimeType_iff (mime : GoString) :
    IsAllowedMimeType mime = true ↔ isAllowedContentType mime := by
  unfold IsAllowedMimeType isAllowedContentType allowedMimeTypes
  simp only [decide_eq_true_eq, List.mem_cons, List.not_mem_nil, or_false]

theorem ValidateFileSize_iff (size maxSize : Int) :
    ValidateFileSize size maxSize = true ↔ isValidSize size maxSize := by
  unfold ValidateFileSize isValidSize
  simp only [gt_iff_lt, Bool.and_eq_true, decide_eq_true_eq]

/-- The two rejections of `UploadRequest` come first and leave nothing behind;
past them no response is a `BadRequest`. -/
theorem uploadRequest_cases (h : ImageHandler) (env : Env) (db : DB) (req : UploadRequestReq) :
    (IsAllowedMimeType req.ContentType = false →
        UploadRequest h env db (some req) = ⟨badRequest "Content type not allowed", db, []⟩) ∧
      (IsAllowedMimeType req.ContentType = true →
        ValidateFileSize req.FileSize h.maxFileSizeBytes = false →
        UploadRequest h env db (some req) = ⟨badRequest "File size exceeds limit", db, []⟩) ∧
      (IsAllowedMimeType req.ContentType = true →
        ValidateFileSize req.FileSize h.maxFileSizeBytes = true →
        (UploadRequest h env db (some req)).resp.isBadRequest = false) := by
  refine ⟨?_, ?_, ?_⟩
  · intro hm
    simp [UploadRequest, hm]
  · intro hm hv
    simp [UploadRequest, hm, hv]
  · intro hm hv
    simp only [UploadRequest, hm, hv, Bool.not_true, Bool.false_eq_true, if_false]
    split
    · rfl
    · split
      · rfl
      · split
        · rfl
        · split <;> rfl

theorem uploadRequest_badRequest_iff (h : ImageHandler) (env : Env) (db : DB)
    (req : UploadRequestReq) :
    (UploadRequest h env db (some req)).resp.isBadRequest = true ↔
      ¬ isAllowedContentType req.ContentType ∨
        ¬ isValidSize req.FileSize h.maxFileSizeBytes := by
  obtain ⟨h1, h2, h3⟩ := uploadRequest_cases h env db req
  rw [← IsAllowedMimeType_iff, ← ValidateFileSize_iff]
  cases hm : IsAllowedMimeType req.ContentType with
  | false =>
    rw [h1 hm]
    simp [badRequest, Response.isBadRequest]
  | true =>
    cases hv : ValidateFileSize req.FileSize h.maxFileSizeBytes with
    | false =>
      rw [h2 hm hv]
      simp [badRequest, Response.isBadRequest]
    | true =>
      rw [h3 hm hv]
      simp

/-- C11: for a handler made by `NewImageHandler` (limit 50 MiB = 52428800 bytes)
and a body that binds, `UploadRequest` answers `BadRequest` exactly when the
content type is none of the four allow-listed ones or `isValidSize` fails, with
`ValidateFileSize` true iff `0 < bytes ≤ maxBytes`; a rejection leaves the table
as it is and calls the object store not at all; the file name does not enter the
decision; `report.pdf` with `image/png` and 1048576 bytes is not rejected (and,
on a working engine and object store, is answered with an upload credential),
`x.png` with `application/pdf` and 10 bytes is rejected. -/
theorem uploadRequest_rejection (s3Client : Option Client) (putTTL getTTL : Int) (env : Env)
    (db : DB) (req : UploadRequestReq) :
    (NewImageHandler s3Client putTTL getTTL).maxFileSizeBytes = 52428800 ∧
      ((UploadRequest (NewImageHandler s3Client putTTL getTTL) env db
          (some req)).resp.isBadRequest = true ↔
        ¬ isAllowedContentType req.ContentType ∨ ¬ isValidSize req.FileSize 52428800) ∧
      (∀ bytes maxBytes : Int,
        ValidateFileSize bytes maxBytes = true ↔ 0 < bytes ∧ bytes ≤ maxBytes) ∧
      ((UploadRequest (NewImageHandler s3Client putTTL getTTL) env db
          (some req)).resp.isBadRequest = true →
        (UploadRequest (NewImageHandler s3Client putTTL getTTL) env db (some req)).db = db ∧
        (UploadRequest (NewImageHandler s3Client putTTL getTTL) env db (some req)).calls = []) ∧
      (∀ fileName : GoString,
        (UploadRequest (NewImageHandler s3Client putTTL getTTL) env db
          (some { req with FileName := fileName })).resp.isBadRequest =
        (UploadRequest (NewImageHandler s3Client putTTL getTTL) env db
          (some req)).resp.isBadRequest) ∧
      (UploadRequest (NewImageHandler s3Client putTTL getTTL) env db
        (some ⟨ascii "report.pdf", ascii "image/png", 1048576⟩)).resp.isBadRequest = false ∧
      UploadRequest (NewImageHandler (some okClient) 300 300) (sampleEnv 5000) []
        (some ⟨ascii "report.pdf", ascii "image/png", 1048576⟩) =
        ⟨.uploadRequest
          { Image :=
              { ID := ⟨100⟩
                ObjectKey :=
                  ascii "y=2026/m=03/d=07/00000000-0000-0000-0000-0000000000c8_report.pdf"
                OriginalName := ascii "report.pdf"
                MimeType := ascii "image/png"
                ByteSize := 1048576
                Status := StatusRequested }
            Upload :=
              { Method := ascii "PUT"
                URL := ascii ("https://bucket/put/" ++
                  "y=2026/m=03/d=07/00000000-0000-0000-0000-0000000000c8_report.pdf")
                Headers := [(ascii "Content-Type", ascii "image/png")]
                ExpiresInSec := 300 } },
          [newImage (sampleEnv 5000)
            (ascii "y=2026/m=03/d=07/00000000-0000-0000-0000-0000000000c8_report.pdf")
            ⟨ascii "report.pdf", ascii "image/png", 1048576⟩],
          [.presignPut
            (ascii "y=2026/m=03/d=07/00000000-0000-0000-0000-0000000000c8_report.pdf")
            (ascii "image/png") 300000000000]⟩ ∧
      UploadRequest (NewImageHandler s3Client putTTL getTTL) env db
        (some ⟨ascii "x.png", ascii "application/pdf", 10⟩) =
        ⟨badRequest "Content type not allowed", db, []⟩ := by
  have hmax : (NewImageHandler s3Client putTTL getTTL).maxFileSizeBytes = 52428800 := by
    simp [NewImageHandler]
  have hiff : ∀ r : UploadRequestReq,
      (UploadRequest (NewImageHandler s3Client putTTL getTTL) env db
          (some r)).resp.isBadRequest = true ↔
        ¬ isAllowedContentType r.ContentType ∨ ¬ isValidSize r.FileSize 52428800 := by
    intro r
    rw [uploadRequest_badRequest_iff, hmax]
  refine ⟨hmax, hiff req, ?_, ?_, ?_, ?_, ?_, ?_⟩
  · intro bytes maxBytes
    exact ValidateFileSize_iff bytes maxBytes
  · intro hbad
    obtain ⟨h1, h2, h3⟩ :=
      uploadRequest_cases (NewImageHandler s3Client putTTL getTTL) env db req
    cases hm : IsAllowedMimeType req.ContentType with
    | false => rw [h1 hm]; exact ⟨rfl, rfl⟩
    | true =>
      cases hv : ValidateFileSize req.FileSize
          (NewImageHandler s3Client putTTL getTTL).maxFileSizeBytes with
      | false => rw [h2 hm hv]; exact ⟨rfl, rfl⟩
      | true => rw [h3 hm hv] at hbad; exact absurd hbad (by simp)
  · intro fileName
    rw [Bool.eq_iff_iff, hiff, hiff]
  · rw [Bool.eq_false_iff]
    intro hbad
    rw [hiff] at hbad
    rcases hbad with hbad | hbad
    · exact hbad (Or.inr (Or.inl rfl))
    · exact hbad (by unfold isValidSize; decide)
  · rfl
  · exact (uploadRequest_cases (NewImageHandler s3Client putTTL getTTL) env db
      ⟨ascii "x.png", ascii "application/pdf", 10⟩).1 (by decide)

/-! ## One page of the list -/

/-- C12, as stated, fails: three uploaded rows created at seconds 30, 20 and 10,
page size 1.  The page holds the row of second 30, the trimmed extra row is the
one of second 20, and the cursor emitted names second 30, the last row returned. -/
theorem listImages_cursor_of_last_returned :
    matchingRows
        [sampleRow 1 .uploaded 1767225630000000000, sampleRow 2 .uploaded 1767225620000000000,
          sampleRow 3 .uploaded 1767225610000000000] none =
        [sampleRow 1 .uploaded 1767225630000000000, sampleRow 2 .uploaded 1767225620000000000,
          sampleRow 3 .uploaded 1767225610000000000] ∧
      (ListImages (NewImageHandler none 300 300) (sampleEnv 0)
        [sampleRow 1 .uploaded 1767225630000000000, sampleRow 2 .uploaded 1767225620000000000,
          sampleRow 3 .uploaded 1767225610000000000] (some 1) none).resp =
        .imageList
          { Items := [toImageMeta (sampleRow 1 .uploaded 1767225630000000000)]
            NextCursor := some (.instant 1767225630000000000) } ∧
      formatRFC3339 (sampleRow 2 .uploaded 1767225620000000000).CreatedAt =
        .instant 1767225620000000000 ∧
      CursorText.instant 1767225630000000000 ≠ .instant 1767225620000000000 := by
  decide

theorem getLast?_take (l : List Image) (n : Nat) (hpos : 0 < n) (hlen : n ≤ l.length) :
    (l.take n).getLast? = l[n - 1]? := by
  rw [List.getLast?_eq_getElem?, List.length_take, Nat.min_eq_left hlen]
  exact List.getElem?_take_of_lt (by omega)

theorem pageLimit_le (limitParam : Option Int) : pageLimit limitParam ≤ 100 := by
  unfold pageLimit
  split
  · split
    · omega
    · omega
  · omega

/-- The response of `ListImages` is made of the rows the query returns under `LIMIT limit+1`. -/
theorem listImages_of_fetched (h : ImageHandler) (env : Env) (db db2 : DB)
    (limitParam : Option Int) (cursor : Option CursorText)
    (hsame : (matchingRows db2 cursor).take (pageLimit limitParam + 1) =
      (matchingRows db cursor).take (pageLimit limitParam + 1)) :
    (ListImages h env db2 limitParam cursor).resp = (ListImages h env db limitParam cursor).resp := by
  unfold matchingRows at hsame
  unfold ListImages DB.FindOrderLimit
  cases env.readErr
  · simp only [Bool.false_eq_true, if_false, hsame]
  · rfl

/-- C12, amended: when the query is answered, `ListImages` sees the first
`limit+1` matching rows only, returns the first `limit` of the matching rows,
emits a cursor exactly when more than `limit` rows match, and the cursor is the
RFC 3339 text of the creation time of the last row returned, the `limit`-th, not
of the trimmed one; `limit` is the parameter when it lies in `1 .. 100`, else 20. -/
theorem listImages_one_page (h : ImageHandler) (env : Env) (db : DB) (limitParam : Option Int)
    (cursor : Option CursorText) (hread : env.readErr = false) :
    ∃ res, (ListImages h env db limitParam cursor).resp = .imageList res ∧
      (ListImages h env db limitParam cursor).db = db ∧
      res.Items = ((matchingRows db cursor).take (pageLimit limitParam)).map toImageMeta ∧
      (res.NextCursor ≠ none ↔ pageLimit limitParam < (matchingRows db cursor).length) ∧
      (pageLimit limitParam < (matchingRows db cursor).length →
        ∃ last, (matchingRows db cursor)[pageLimit limitParam - 1]? = some last ∧
          res.NextCursor = some (formatRFC3339 last.CreatedAt)) ∧
      (∀ db2, (matchingRows db2 cursor).take (pageLimit limitParam + 1) =
          (matchingRows db cursor).take (pageLimit limitParam + 1) →
        (ListImages h env db2 limitParam cursor).resp =
          (ListImages h env db limitParam cursor).resp) ∧
      1 ≤ pageLimit limitParam ∧ pageLimit limitParam ≤ 100 ∧
      (∀ n : Int, limitParam = some n → 0 < n → n ≤ 100 → (pageLimit limitParam : Int) = n) := by
  have hpos := pageLimit_pos limitParam
  have hlim : ∀ n : Int, limitParam = some n → 0 < n → n ≤ 100 →
      (pageLimit limitParam : Int) = n := by
    intro n hn h0 h1
    subst hn
    simp only [pageLimit, gt_iff_lt, h0, h1, and_self, if_true]
    omega
  have hfetch := fun db2 => listImages_of_fetched h env db db2 limitParam cursor
  by_cases hmore : pageLimit limitParam < (matchingRows db cursor).length
  · have hresp := listImages_more h env db limitParam cursor hread hmore
    have hlast := getLast?_take (matchingRows db cursor) (pageLimit limitParam) hpos (by omega)
    obtain ⟨last, hget⟩ : ∃ last, (matchingRows db cursor)[pageLimit limitParam - 1]? =
        some last := by
      have hlt : pageLimit limitParam - 1 < (matchingRows db cursor).length := by omega
      exact ⟨_, List.getElem?_eq_getElem hlt⟩
    refine ⟨_, hresp, listImages_db h env db limitParam cursor, rfl, ?_, ?_, hfetch, hpos,
      pageLimit_le limitParam, hlim⟩
    · constructor
      · intro _; exact hmore
      · intro _
        show ((orderCreatedAtDesc (db.filter (listCond cursor))).take
          (pageLimit limitParam)).getLast?.map (fun last => formatRFC3339 last.CreatedAt) ≠ none
        have hl : ((orderCreatedAtDesc (db.filter (listCond cursor))).take
            (pageLimit limitParam)).getLast? = some last := by
          have := hlast.trans hget
          exact this
        rw [hl]
        simp
    · intro _
      refine ⟨last, hget, ?_⟩
      show ((orderCreatedAtDesc (db.filter (listCond cursor))).take
        (pageLimit limitParam)).getLast?.map (fun last => formatRFC3339 last.CreatedAt) = _
      have hl : ((orderCreatedAtDesc (db.filter (listCond cursor))).take
          (pageLimit limitParam)).getLast? = some last := hlast.trans hget
      rw [hl]
      rfl
  · have hle : (matchingRows db cursor).length ≤ pageLimit limitParam := by omega
    have hresp := listImages_last_page h env db limitParam cursor hread hle
    refine ⟨_, hresp, listImages_db h env db limitParam cursor, ?_, ?_, ?_, hfetch, hpos,
      pageLimit_le limitParam, hlim⟩
    · show (orderCreatedAtDesc (db.filter (listCond cursor))).map toImageMeta = _
      rw [List.take_of_length_le hle]
      rfl
    · constructor
      · intro hne; exact absurd rfl hne
      · intro hlt; exact absurd hlt hmore
    · intro hlt; exact absurd hlt hmore

/-- C12, amended, at three uploaded rows and the page size 1. -/
theorem listImages_one_page_witness :
    (sampleEnv 0).readErr = false ∧
      ∃ res, (ListImages (NewImageHandler none 300 300) (sampleEnv 0)
          [sampleRow 1 .uploaded 1767225630000000000, sampleRow 2 .uploaded 1767225620000000000,
            sampleRow 3 .uploaded 1767225610000000000] (some 1) none).resp = .imageList res ∧
        res.Items = ((matchingRows
          [sampleRow 1 .uploaded 1767225630000000000, sampleRow 2 .uploaded 1767225620000000000,
            sampleRow 3 .uploaded 1767225610000000000] none).take (pageLimit (some 1))).map
          toImageMeta := by
  refine ⟨rfl, ?_⟩
  obtain ⟨res, h1, _, h3, _⟩ := listImages_one_page (NewImageHandler none 300 300) (sampleEnv 0)
    [sampleRow 1 .uploaded 1767225630000000000, sampleRow 2 .uploaded 1767225620000000000,
      sampleRow 3 .uploaded 1767225610000000000] (some 1) none rfl
  exact ⟨res, h1, h3⟩

/-! ## The TTL of view URLs -/

theorem viewLoop_calls_eq (s3 : Client) (m : UUID → Option Image) (ttl : Int) (e : Int)
    (reqs : List ViewUrlRequest) :
    (viewLoop s3 m ttl e reqs).2 =
      reqs.filterMap (fun r => (m r.ID).map (fun img => S3Call.presignGet img.ObjectKey ttl)) := by
  induction reqs with
  | nil => rfl
  | cons q rest ih =>
    simp only [viewLoop, List.filterMap_cons]
    cases hm : m q.ID with
    | none => simpa using ih
    | some img =>
      cases hp : s3.PresignGetObject img.ObjectKey ttl with
      | error err => simpa [hp] using ih
      | ok url => simpa [hp] using ih

theorem viewLoop_result_mem (s3 : Client) (m : UUID → Option Image) (ttl : Int) (e : Int)
    (reqs : List ViewUrlRequest) (r : ViewUrlRequest) (img : Image) (url : GoString)
    (hr : r ∈ reqs) (hm : m r.ID = some img)
    (hurl : s3.PresignGetObject img.ObjectKey ttl = .ok url) :
    ({ ID := r.ID, URL := url, ExpiresAt := e } : ViewUrlResult) ∈ (viewLoop s3 m ttl e reqs).1 := by
  induction reqs with
  | nil => simp at hr
  | cons q rest ih =>
    rcases List.mem_cons.1 hr with rfl | hr
    · simp [viewLoop, hm, hurl]
    · have hrest := ih hr
      simp only [viewLoop]
      split
      · split
        · exact hrest
        · exact List.mem_cons_of_mem _ hrest
      · exact hrest

/-- Under the primary key, the map `ViewUrls` builds sends a requested id to the
uploaded row with that id, if there is one. -/
theorem imageMap_eq_find (db : DB) (hwf : db.WF) (ids : List UUID) (id : UUID) (hid : id ∈ ids) :
    buildImageMap (db.filter (fun r =>
        decide (r.ID ∈ ids) && decide (r.StorageStatus = StatusUploaded))) id =
      db.find? (fun img => decide (img.ID = id) && decide (img.StorageStatus = StatusUploaded)) := by
  rw [buildImageMap_eq]
  cases hf : db.find?
      (fun img => decide (img.ID = id) && decide (img.StorageStatus = StatusUploaded)) with
  | none =>
    rw [List.find?_eq_none] at hf ⊢
    intro x hx
    rw [List.mem_reverse, List.mem_filter] at hx
    simp only [Bool.and_eq_true, decide_eq_true_eq] at hx
    have := hf x hx.1
    simp only [Bool.and_eq_true, decide_eq_true_eq, not_and] at this
    simp only [decide_eq_true_eq]
    intro hxid
    exact this hxid hx.2.2
  | some img =>
    have hp := List.find?_some hf
    have hmem := List.mem_of_find?_eq_some hf
    simp only [Bool.and_eq_true, decide_eq_true_eq] at hp
    apply find?_eq_some_of_unique
    · rw [List.mem_reverse, List.mem_filter]
      refine ⟨hmem, ?_⟩
      simp only [Bool.and_eq_true, decide_eq_true_eq]
      exact ⟨by rw [hp.1]; exact hid, hp.2⟩
    · simp [hp.1]
    · intro b hb hpb
      rw [List.mem_reverse, List.mem_filter] at hb
      simp only [decide_eq_true_eq] at hpb
      exact row_eq_of_id_eq db hwf b img hb.1 hmem (by rw [hpb, hp.1])

theorem seconds_exact (t : Int) (hlo : 1 ≤ t) (hhi : t ≤ 9223372036) :
    seconds t = t * 1000000000 := by
  unfold seconds wrapInt64
  have h1 : (0 : Int) ≤ t * 1000000000 + 2 ^ 63 := by norm_num; omega
  have h2 : t * 1000000000 + 2 ^ 63 < 2 ^ 64 := by norm_num; omega
  rw [Int.emod_eq_of_lt h1 h2]
  ring

/-- C7, as stated, fails: with the configured maximum 9223372037 seconds and no
`ttlSec`, the seconds chosen are the maximum, but `time.Duration(ttlSec) *
time.Second` wraps around: the credential is issued with a negative duration and
`expiresAt` lies before the clock reading 5000. -/
theorem viewUrls_ttl_wraps :
    (0 : Int) < (NewImageHandler (some okClient) 300 9223372037).presignGetTTLSec ∧
      viewTTLSec (NewImageHandler (some okClient) 300 9223372037).presignGetTTLSec none =
        9223372037 ∧
      (ViewUrls (NewImageHandler (some okClient) 300 9223372037) (sampleEnv 5000)
        [sampleRow 1 .uploaded 10] (some ⟨[⟨⟨1⟩⟩], none⟩)).calls =
        [.presignGet (ascii "k1") (-9223372036709551616)] ∧
      (ViewUrls (NewImageHandler (some okClient) 300 9223372037) (sampleEnv 5000)
        [sampleRow 1 .uploaded 10] (some ⟨[⟨⟨1⟩⟩], none⟩)).resp =
        .viewUrls
          { Results :=
              [{ ID := ⟨1⟩
                 URL := ascii "https://bucket/get/k1"
                 ExpiresAt := 5000 - 9223372036709551616 }] } ∧
      (-9223372036709551616 : Int) < 1 := by
  decide

theorem filterMap_eq_of_mem {α β : Type} (l : List α) (f g : α → Option β)
    (hfg : ∀ x ∈ l, f x = g x) : l.filterMap f = l.filterMap g := by
  induction l with
  | nil => rfl
  | cons x xs ih =>
    simp only [List.filterMap_cons, hfg x (List.mem_cons_self x xs)]
    rw [ih (fun y hy => hfg y (List.mem_cons_of_mem x hy))]

/-- C7, amended: with a configured maximum in `1 .. 9223372036` seconds, the
object-store client present, the query answered and a non-empty request list on
a table that respects its primary key, the TTL `ViewUrls` uses is the caller's
`ttlSec` when `0 < ttlSec ≤ max`, and the maximum when `ttlSec` is absent, not
positive, or above the maximum; it lies in `1 .. max`.  The calls on the object
store are exactly one GET presign, with that many seconds, per request that
names an uploaded row, in request order; every credential issued comes back in
an entry, and every entry expires at the clock reading plus that many seconds. -/
theorem viewUrls_ttl_used (h : ImageHandler) (env : Env) (db : DB) (req : ViewUrlsReq)
    (s3 : Client) (hmax : 0 < h.presignGetTTLSec) (hcap : h.presignGetTTLSec ≤ 9223372036)
    (hs3 : h.s3Client = some s3) (hread : env.readErr = false) (hne : req.Requests ≠ [])
    (hwf : DB.WF db) :
    (∀ t, req.TTLSec = some t → 0 < t → t ≤ h.presignGetTTLSec →
        viewTTLSec h.presignGetTTLSec req.TTLSec = t) ∧
      (req.TTLSec = none → viewTTLSec h.presignGetTTLSec req.TTLSec = h.presignGetTTLSec) ∧
      (∀ t, req.TTLSec = some t → t ≤ 0 →
        viewTTLSec h.presignGetTTLSec req.TTLSec = h.presignGetTTLSec) ∧
      (∀ t, req.TTLSec = some t → h.presignGetTTLSec < t →
        viewTTLSec h.presignGetTTLSec req.TTLSec = h.presignGetTTLSec) ∧
      1 ≤ viewTTLSec h.presignGetTTLSec req.TTLSec ∧
      viewTTLSec h.presignGetTTLSec req.TTLSec ≤ h.presignGetTTLSec ∧
      (ViewUrls h env db (some req)).calls =
        req.Requests.filterMap (fun r =>
          (db.find? (fun img =>
            decide (img.ID = r.ID) && decide (img.StorageStatus = StatusUploaded))).map
            (fun img => S3Call.presignGet img.ObjectKey
              (viewTTLSec h.presignGetTTLSec req.TTLSec * 1000000000))) ∧
      (∀ img ∈ db, img.StorageStatus = StatusUploaded → (⟨img.ID⟩ : ViewUrlRequest) ∈ req.Requests →
        S3Call.presignGet img.ObjectKey
          (viewTTLSec h.presignGetTTLSec req.TTLSec * 1000000000) ∈
            (ViewUrls h env db (some req)).calls) ∧
      (∀ img ∈ db, img.StorageStatus = StatusUploaded → (⟨img.ID⟩ : ViewUrlRequest) ∈ req.Requests →
        ∀ url, s3.PresignGetObject img.ObjectKey
            (viewTTLSec h.presignGetTTLSec req.TTLSec * 1000000000) = .ok url →
          ∃ res, (ViewUrls h env db (some req)).resp = .viewUrls res ∧
            ({ ID := img.ID, URL := url,
               ExpiresAt := env.now + viewTTLSec h.presignGetTTLSec req.TTLSec * 1000000000 } :
              ViewUrlResult) ∈ res.Results) ∧
      (∃ res, (ViewUrls h env db (some req)).resp = .viewUrls res ∧
        ∀ r ∈ res.Results,
          r.ExpiresAt = env.now + viewTTLSec h.presignGetTTLSec req.TTLSec * 1000000000) := by
  obtain ⟨c1, c2, c3, c4, hlo, hhi, hsec, _, _⟩ := viewTTLSec_clamp h env db req hmax
  have hexact := hsec hcap
  have hmap : ∀ r ∈ req.Requests,
      buildImageMap (db.filter (fun x =>
        decide (x.ID ∈ req.Requests.map (fun q => q.ID)) &&
          decide (x.StorageStatus = StatusUploaded))) r.ID =
      db.find? (fun img => decide (img.ID = r.ID) && decide (img.StorageStatus = StatusUploaded)) :=
    fun r hr => imageMap_eq_find db hwf _ r.ID (List.mem_map.2 ⟨r, hr, rfl⟩)
  have hfound : ∀ img ∈ db, img.StorageStatus = StatusUploaded →
      db.find? (fun x => decide (x.ID = img.ID) && decide (x.StorageStatus = StatusUploaded)) =
        some img := by
    intro img himg hup
    apply find?_eq_some_of_unique _ _ _ himg
    · simp [hup]
    · intro b hb hpb
      simp only [Bool.and_eq_true, decide_eq_true_eq] at hpb
      exact row_eq_of_id_eq db hwf b img hb himg hpb.1
  have hcalls : (ViewUrls h env db (some req)).calls =
      req.Requests.filterMap (fun r =>
        (db.find? (fun img =>
          decide (img.ID = r.ID) && decide (img.StorageStatus = StatusUploaded))).map
          (fun img => S3Call.presignGet img.ObjectKey
            (viewTTLSec h.presignGetTTLSec req.TTLSec * 1000000000))) := by
    rw [viewUrls_unfold h env db req s3 hs3 hread hne]
    simp only
    rw [viewLoop_calls_eq, hexact]
    apply filterMap_eq_of_mem
    intro r hr
    rw [hmap r hr]
  refine ⟨c1, c2, c3, c4, hlo, hhi, hcalls, ?_, ?_, ?_⟩
  · intro img himg hup hreq
    rw [hcalls, List.mem_filterMap]
    exact ⟨⟨img.ID⟩, hreq, by simp [hfound img himg hup]⟩
  · intro img himg hup hreq url hurl
    rw [viewUrls_unfold h env db req s3 hs3 hread hne]
    refine ⟨_, rfl, ?_⟩
    simp only
    rw [hexact]
    have hm := hmap ⟨img.ID⟩ hreq
    rw [hfound img himg hup] at hm
    exact viewLoop_result_mem s3 _ _ _ req.Requests ⟨img.ID⟩ img url hreq hm hurl
  · rw [viewUrls_unfold h env db req s3 hs3 hread hne]
    refine ⟨_, rfl, ?_⟩
    intro r hr
    simp only at hr
    rw [← hexact]
    exact (viewLoop_results _ _ _ _ _ r hr).1

/-- C7, amended, at the maximum 300, a request with `ttlSec = 99999` for the
uploaded row 1 and the requested row 2: the one credential is issued for 300
seconds, and the one entry expires 300 seconds after the clock reading 5000. -/
theorem viewUrls_ttl_used_witness :
    (0 : Int) < (NewImageHandler (some okClient) 300 300).presignGetTTLSec ∧
      (NewImageHandler (some okClient) 300 300).presignGetTTLSec ≤ 9223372036 ∧
      (NewImageHandler (some okClient) 300 300).s3Client = some okClient ∧
      (sampleEnv 5000).readErr = false ∧
      (ViewUrlsReq.mk [⟨⟨1⟩⟩, ⟨⟨2⟩⟩] (some 99999)).Requests ≠ [] ∧
      DB.WF [sampleRow 1 .uploaded 10, sampleRow 2 .requested 20] ∧
      viewTTLSec (NewImageHandler (some okClient) 300 300).presignGetTTLSec
        (ViewUrlsReq.mk [⟨⟨1⟩⟩, ⟨⟨2⟩⟩] (some 99999)).TTLSec = 300 ∧
      (ViewUrls (NewImageHandler (some okClient) 300 300) (sampleEnv 5000)
        [sampleRow 1 .uploaded 10, sampleRow 2 .requested 20]
        (some (ViewUrlsReq.mk [⟨⟨1⟩⟩, ⟨⟨2⟩⟩] (some 99999)))).calls =
        [.presignGet (ascii "k1") 300000000000] ∧
      ∃ res, (ViewUrls (NewImageHandler (some okClient) 300 300) (sampleEnv 5000)
          [sampleRow 1 .uploaded 10, sampleRow 2 .requested 20]
          (some (ViewUrlsReq.mk [⟨⟨1⟩⟩, ⟨⟨2⟩⟩] (some 99999)))).resp = .viewUrls res ∧
        ({ ID := ⟨1⟩, URL := ascii "https://bucket/get/k1", ExpiresAt := 300000005000 } :
          ViewUrlResult) ∈ res.Results := by
  have hwf : DB.WF [sampleRow 1 .uploaded 10, sampleRow 2 .requested 20] := by
    unfold DB.WF; decide
  obtain ⟨_, _, _, c4, _, _, hcalls, _, hres, _⟩ :=
    viewUrls_ttl_used (NewImageHandler (some okClient) 300 300) (sampleEnv 5000)
      [sampleRow 1 .uploaded 10, sampleRow 2 .requested 20]
      (ViewUrlsReq.mk [⟨⟨1⟩⟩, ⟨⟨2⟩⟩] (some 99999)) okClient (by decide) (by decide) rfl rfl
      (by decide) hwf
  have httl := c4 99999 rfl (by decide)
  refine ⟨by decide, by decide, rfl, rfl, by decide, hwf, httl, ?_, ?_⟩
  · rw [hcalls, httl]
    decide
  · have := hres (sampleRow 1 .uploaded 10) (by decide) rfl (by decide)
      (ascii "https://bucket/get/k1") (by rw [httl]; rfl)
    rw [httl] at this
    exact this

end Storage
